import Mathlib

/-! # alsa-dsd-player: a shallow embedding of `main.c`

The program opens a file, optionally skips forward to the first `DSD ` chunk
of a DSDIFF container, negotiates an ALSA playback stream and then copies the
file to the device chunk by chunk.

The embedding keeps the C names.  The file descriptor is a regular file (a
finite byte sequence with a read offset), the sound device is an arbitrary
function from the history of calls made on it to the `int` it returns, and
every call made on the device is appended to a log so that statements such as
"no write was submitted" can be read off the log.
-/

namespace DsdPlayer

/-! ## Bytes and the input file -/

/-- One `uint8_t`. -/
abbrev Byte := Fin 256

/-- An open regular file: `pos` is the offset of the next byte that `read`
returns and `rest` holds the bytes from that offset to the end of the file. -/
structure Fd where
  pos : Nat
  rest : List Byte
  deriving DecidableEq, Repr

/-- What `open(name, O_RDONLY)` yields for a file with the given content. -/
def Fd.opened (content : List Byte) : Fd := ⟨0, content⟩

/-- The call `read(fd, buf, n)` on a regular file: it stores the next
`min n remaining` bytes, returns how many it stored (the length of the first
component) and advances the offset by as much. -/
def Fd.read (fd : Fd) (n : Nat) : List Byte × Fd :=
  ((fd.rest.take n), ⟨fd.pos + (fd.rest.take n).length, fd.rest.drop n⟩)

/-! ## Compile-time configuration (`#if 1` selects 8-bit DSD) -/

/-- The two arms of the `#if 1 ... #else ... #endif` block. -/
inductive Format
  | DSD_U8
  | DSD_U16
  deriving DecidableEq, Repr

/-- `ALSA_FORMAT`; `wide = false` is the arm that `#if 1` compiles. -/
def ALSA_FORMAT (wide : Bool) : Format := if wide then .DSD_U16 else .DSD_U8

/-- `SAMPLE_SIZE`: `sizeof(uint8_t) * 2` or `sizeof(uint16_t) * 2`. -/
def SAMPLE_SIZE (wide : Bool) : Nat := if wide then 2 * 2 else 1 * 2

/-- `SAMPLE_RATE_DIV`. -/
def SAMPLE_RATE_DIV (wide : Bool) : Nat := if wide then 2 else 1

/-- `CHANNELCOUNT`. -/
def CHANNELCOUNT : Nat := 2

/-- `FRAMECOUNT`, written `(1024 * 128)` in the source. -/
def FRAMECOUNT : Nat := 1024 * 128

/-- `BUFSIZE`. -/
def BUFSIZE (wide : Bool) : Nat := FRAMECOUNT * SAMPLE_SIZE wide * CHANNELCOUNT

/-! ## `dff_fast_forward` -/

/-- The constant `0x44534420`, the characters `'D' 'S' 'D' ' '`. -/
def DSD_MARK : Nat := 0x44534420

/-- The four bytes whose big-endian value is `DSD_MARK`. -/
def marker : List Byte := [0x44, 0x53, 0x44, 0x20]

/-- The two statements `chunk_header <<= 8; chunk_header |= b;` on a
`uint32_t`. -/
def shift_in (chunk_header : Nat) (b : Byte) : Nat :=
  ((chunk_header <<< 8) % 2 ^ 32) ||| b.val

/-- The `while (1)` loop of `dff_fast_forward`.  Every iteration reads one
byte, so the loop is a recursion over the bytes still unread: at end of file
`read` returns `0`, which is not `sizeof(b)`, and the loop breaks with
`ret = 0`; on a match the second `read` asks for `sizeof(dummy) = 8` bytes and
`ret` is the number it delivered.  The result is `ret` and the descriptor as
the loop leaves it. -/
def dff_scan (chunk_header : Nat) (pos : Nat) : List Byte → Int × Fd
  | [] => (0, ⟨pos, []⟩)
  | b :: rest =>
    if shift_in chunk_header b = DSD_MARK then
      (((Fd.read ⟨pos + 1, rest⟩ 8).1.length : Int), (Fd.read ⟨pos + 1, rest⟩ 8).2)
    else
      dff_scan (shift_in chunk_header b) (pos + 1) rest

/-- The function `dff_fast_forward(fd)`: `chunk_header` starts at `0`. -/
def dff_fast_forward (fd : Fd) : Int × Fd := dff_scan 0 fd.pos fd.rest

/-- The value of `chunk_header` after the bytes `p` have been shifted in. -/
def window (p : List Byte) : Nat := p.foldl shift_in 0

/-! ## The sound device -/

/-- The stream direction, `snd_pcm_stream_t`. -/
inductive Dir
  | PLAYBACK
  | CAPTURE
  deriving DecidableEq, Repr

/-- The access type, `snd_pcm_access_t`; only one value is used. -/
inductive Access
  | RW_INTERLEAVED
  deriving DecidableEq, Repr

/-- Every ALSA call the program makes, with the arguments it passes.  The
constructor names drop the `snd_pcm_` of the C functions. -/
inductive Call
  | pcm_open (name : String) (dir : Dir) (mode : Nat)
  | hw_params_malloc
  | hw_params_any
  | hw_params_set_access (a : Access)
  | hw_params_set_format (f : Format)
  | hw_params_set_rate_near (rate : Nat)
  | hw_params_set_period_time_near (period_time : Nat)
  | hw_params_set_channels (n : Nat)
  | hw_params
  | hw_params_free
  | sw_params_malloc
  | sw_params_current
  | sw_params_set_avail_min (n : Nat)
  | sw_params_set_start_threshold (n : Nat)
  | sw_params
  | prepare
  | wait (timeout : Int)
  | avail_update
  | writei (data : List Byte) (size : Nat)
  | close
  deriving DecidableEq, Repr

/-- The device: the value a call returns, as a function of all calls made so
far, the current one last.  Nothing is assumed about it. -/
abbrev Device := List Call → Int

/-- What the program prints on `stderr`.  `stage name dirname text err` is the
line `"%s (%s): " ++ text ++ "(%s)\n"` of `open_stream` filled with `name`,
`dirname` and `snd_strerror(err)`. -/
inductive Diag
  | usage (argv0 : Option String)
  | unable_to_open_file
  | stage (name dirname text : String) (err : Int)
  | cannot_prepare (err : Int)
  | unable_to_malloc (bytes : Nat)
  | poll_failed
  deriving DecidableEq, Repr

/-- The state a run threads through: the log of device calls (oldest first),
the lines printed on `stderr`, the input file and the two buffers. -/
structure Sys where
  calls : List Call
  err_out : List Diag
  fd : Fd
  readbuf : List Byte
  playbuf : List Byte
  deriving DecidableEq, Repr

/-- Make the device call `c`: log it and return what the device answers. -/
def Sys.call (dev : Device) (c : Call) (s : Sys) : Int × Sys :=
  (dev (s.calls ++ [c]), { s with calls := s.calls ++ [c] })

/-- Print one line on `stderr`. -/
def Sys.emit (d : Diag) (s : Sys) : Sys := { s with err_out := s.err_out ++ [d] }

/-! ## `open_stream` -/

/-- One block of `open_stream`:
`if ((err = CALL) < 0) { fprintf(stderr, ...); return err; }`, followed by the
rest of the function `k`. -/
def checked (dev : Device) (name dirname : String) (c : Call) (text : String)
    (k : Sys → Int × Sys) (s : Sys) : Int × Sys :=
  if (s.call dev c).1 < 0 then
    ((s.call dev c).1, (s.call dev c).2.emit (.stage name dirname text (s.call dev c).1))
  else
    k (s.call dev c).2

/-- The local `dirname` of `open_stream`. -/
def dirname_of (dir : Dir) : String := if dir = .PLAYBACK then "PLAYBACK" else "CAPTURE"

/-- The function `open_stream(handle, name, dir, rate)`, block by block; the
local `period_time` is `1000000` and `format` is `ALSA_FORMAT`.  The result is
the returned `int` and the state afterwards. -/
def open_stream (wide : Bool) (dev : Device) (name : String) (dir : Dir) (rate : Nat)
    (s : Sys) : Int × Sys :=
  let dirname := dirname_of dir
  (checked dev name dirname (.pcm_open name dir 0) "cannot open audio device " <|
   checked dev name dirname .hw_params_malloc "cannot allocate hardware parameter structure" <|
   checked dev name dirname .hw_params_any "cannot initialize hardware parameter structure" <|
   checked dev name dirname (.hw_params_set_access .RW_INTERLEAVED) "cannot set access type" <|
   checked dev name dirname (.hw_params_set_format (ALSA_FORMAT wide)) "cannot set sample format" <|
   checked dev name dirname (.hw_params_set_rate_near rate) "cannot set sample rate" <|
   checked dev name dirname (.hw_params_set_period_time_near 1000000) "cannot set period time" <|
   checked dev name dirname (.hw_params_set_channels 2) "cannot set channel count" <|
   checked dev name dirname .hw_params "cannot set parameters" <|
   fun s1 =>
  (checked dev name dirname .sw_params_malloc "cannot allocate software parameters structure" <|
   checked dev name dirname .sw_params_current "cannot initialize software parameters structure" <|
   checked dev name dirname (.sw_params_set_avail_min (FRAMECOUNT / 2)) "cannot set minimum available count" <|
   checked dev name dirname (.sw_params_set_start_threshold 0) "cannot set start mode" <|
   checked dev name dirname .sw_params "cannot set software parameters" <|
   fun s2 => (0, s2)) (s1.call dev .hw_params_free).2) s

/-- The calls of `open_stream` in program order, each with the text of its
diagnostic; `hw_params_free` returns nothing and has none. -/
def setup_steps (wide : Bool) (name : String) (dir : Dir) (rate : Nat) :
    List (Call × Option String) :=
  [ (.pcm_open name dir 0, some "cannot open audio device "),
    (.hw_params_malloc, some "cannot allocate hardware parameter structure"),
    (.hw_params_any, some "cannot initialize hardware parameter structure"),
    (.hw_params_set_access .RW_INTERLEAVED, some "cannot set access type"),
    (.hw_params_set_format (ALSA_FORMAT wide), some "cannot set sample format"),
    (.hw_params_set_rate_near rate, some "cannot set sample rate"),
    (.hw_params_set_period_time_near 1000000, some "cannot set period time"),
    (.hw_params_set_channels 2, some "cannot set channel count"),
    (.hw_params, some "cannot set parameters"),
    (.hw_params_free, none),
    (.sw_params_malloc, some "cannot allocate software parameters structure"),
    (.sw_params_current, some "cannot initialize software parameters structure"),
    (.sw_params_set_avail_min (FRAMECOUNT / 2), some "cannot set minimum available count"),
    (.sw_params_set_start_threshold 0, some "cannot set start mode"),
    (.sw_params, some "cannot set software parameters") ]

/-- The calls made once the first `k` entries of `setup_steps` have run. -/
def setup_calls (wide : Bool) (name : String) (dir : Dir) (rate : Nat) (k : Nat) : List Call :=
  ((setup_steps wide name dir rate).take k).map Prod.fst

/-! ## The transfer loop -/

/-- The conversion of the `snd_pcm_sframes_t` (a `long`) returned by
`snd_pcm_avail_update` to the `int frames`: reduction modulo `2^32` into the
range of a 32-bit `int`. -/
def to_int32 (x : Int) : Int := (x + 2 ^ 31) % 2 ^ 32 - 2 ^ 31

/-- The bytes per sample of one channel in a sample format. -/
def sample_bytes : Format → Nat
  | .DSD_U8 => 1
  | .DSD_U16 => 2

/-- The number of bytes `snd_pcm_writei` takes from the buffer it is given:
`size` frames, a frame being one sample of `ALSA_FORMAT` for each of the two
channels set by `open_stream`. -/
def frames_to_bytes (wide : Bool) (size : Nat) : Nat :=
  size * (sample_bytes (ALSA_FORMAT wide) * 2)

/-- The `for (i = 0; i < n; i += 4)` loop of the `SAMPLE_SIZE > 2` branch,
from counter value `i` on, where `n` is `frames * SAMPLE_SIZE * CHANNELCOUNT`.
The state is `playbuf` together with the list of all buffer indices accessed,
in order (for each assignment the index written, then the index read).  A
store outside the buffer is dropped and a load outside it gives `0`; the list
of indices is what tells whether that happens.  `n` is at most `BUFSIZE`,
so the `unsigned int i` does not wrap. -/
def layout_loop (n : Nat) (readbuf : List Byte) (i : Nat) (st : List Byte × List Nat) :
    List Byte × List Nat :=
  if i < n then
    layout_loop n readbuf (i + 4)
      (((((st.1.set (i + 0) (readbuf.getD (i + 2) 0)).set (i + 1) (readbuf.getD (i + 0) 0)).set
            (i + 2) (readbuf.getD (i + 3) 0)).set (i + 3) (readbuf.getD (i + 1) 0)),
        st.2 ++ [i + 0, i + 2, i + 1, i + 0, i + 2, i + 3, i + 3, i + 1])
  else st
termination_by n - i

/-- The call `memcpy(playbuf, readbuf, n)`. -/
def memcpy (playbuf readbuf : List Byte) (n : Nat) : List Byte :=
  readbuf.take n ++ playbuf.drop n

/-- How one pass through the body of `while (1)` ends: at a `break`, or at the
closing brace, from where the next pass starts. -/
inductive Step
  | brk (s : Sys)
  | cont (s : Sys)
  deriving DecidableEq, Repr

/-- The part of the loop body after the clamp, for the clamped `frames`
(between `1` and `FRAMECOUNT`, so no product here overflows): the `read`,
the short-read check, the layout change and `snd_pcm_writei`, whose result is
ignored. -/
def read_and_play (wide : Bool) (dev : Device) (frames : Nat) (s : Sys) : Step :=
  let n := frames * SAMPLE_SIZE wide * CHANNELCOUNT
  let r := s.fd.read n
  let s1 : Sys := { s with fd := r.2, readbuf := r.1 ++ s.readbuf.drop r.1.length }
  if r.1.length ≠ n then .brk s1
  else
    let playbuf :=
      if SAMPLE_SIZE wide > 2 then (layout_loop n s1.readbuf 0 (s1.playbuf, [])).1
      else memcpy s1.playbuf s1.readbuf n
    let s2 : Sys := { s1 with playbuf := playbuf }
    .cont (s2.call dev
      (.writei (s2.playbuf.take (frames_to_bytes wide (frames * CHANNELCOUNT)))
        (frames * CHANNELCOUNT))).2

/-- The `int frames` after `if (frames > FRAMECOUNT) frames = FRAMECOUNT;`. -/
def clamp (frames : Int) : Int := if frames > FRAMECOUNT then FRAMECOUNT else frames

/-- One pass through the body of the `while (1)` loop of `main`. -/
def loop_body (wide : Bool) (dev : Device) (s : Sys) : Step :=
  let w := s.call dev (.wait 1000)
  if w.1 < 0 then .brk (w.2.emit .poll_failed)
  else
    let a := w.2.call dev .avail_update
    let frames := to_int32 a.1
    if frames = 0 then .brk a.2
    else if frames < 0 then .brk a.2
    else read_and_play wide dev (clamp frames).toNat a.2

/-- The `while (1)` loop of `main`, up to the `break` that leaves it.  A pass
that does not break has read a whole chunk of at least four bytes from the
file, so the loop ends on every finite file. -/
def transfer_loop (wide : Bool) (dev : Device) (s : Sys) : Sys :=
  match h : loop_body wide dev s with
  | .brk s1 => s1
  | .cont s1 => transfer_loop wide dev s1
termination_by s.fd.rest.length
decreasing_by
  simp only [loop_body] at h
  split at h
  · exact absurd h (by simp)
  · split at h
    · exact absurd h (by simp)
    · split at h
      · exact absurd h (by simp)
      · rename_i h0 hneg
        simp only [read_and_play] at h
        split at h
        · exact absurd h (by simp)
        · rename_i hlen
          have hs : s1.fd.rest.length
              = (s.fd.rest.drop ((clamp (to_int32
                  ((s.call dev (.wait 1000)).2.call dev .avail_update).1)).toNat
                    * SAMPLE_SIZE wide * CHANNELCOUNT)).length := by
            cases h
            rfl
          have hpos : 0 < (clamp (to_int32
              ((s.call dev (.wait 1000)).2.call dev .avail_update).1)).toNat := by
            unfold clamp
            split <;> simp [FRAMECOUNT]
            omega
          have hss : 2 ≤ SAMPLE_SIZE wide := by cases wide <;> simp [SAMPLE_SIZE]
          simp only [Fd.read, Sys.call, List.length_take, ne_eq, not_not] at hlen
          rw [hs, List.length_drop]
          simp only [Sys.call] at hpos ⊢
          have : 0 < (clamp (to_int32 (dev ((s.calls ++ [Call.wait 1000]) ++ [Call.avail_update])))).toNat
              * SAMPLE_SIZE wide * CHANNELCOUNT := by
            have := Nat.mul_pos (Nat.mul_pos hpos (by omega : 0 < SAMPLE_SIZE wide))
              (by decide : 0 < CHANNELCOUNT)
            exact this
          omega

/-! ## `main` -/

/-- The test `len > 4 && strcmp(name + len - 4, ".dff") == 0`.  The name is
compared character by character; for the four ASCII characters of `.dff` this
is the comparison of the last four bytes. -/
def ends_in_dff (name : String) : Bool :=
  decide (name.length > 4) && decide (name.data.drop (name.length - 4) = ['.', 'd', 'f', 'f'])

/-- What a run of `main` depends on: the arguments, the content of the file
named by the first one (`none` when `open` fails), the device, and whether
each of the two `malloc` calls succeeds. -/
structure Env where
  argv : List String
  file : Option (List Byte)
  dev : Device
  malloc_playbuf : Bool
  malloc_readbuf : Bool

/-- The outcome of a run: the value `main` returns, the device calls made, the
lines printed on `stderr`, and the input file as it was left (when it was
opened). -/
structure Run where
  exit : Int
  calls : List Call
  err_out : List Diag
  fd : Option Fd
  deriving DecidableEq, Repr

/-- Leave `main` with value `code` from state `s`. -/
def Sys.ret (s : Sys) (code : Int) : Run := ⟨code, s.calls, s.err_out, some s.fd⟩

/-- The end of `main` once the loop is left: `snd_pcm_close`, `close(fd)`,
`return 0`. -/
def main_finish (dev : Device) (s : Sys) : Run := (s.call dev .close).2.ret 0

/-- The function `main` from the call of `open_stream` on, for the opened
file `fd`: stream setup, `snd_pcm_prepare`, the two `malloc` calls and the
`memset`, the loop and the final `return 0`.  A buffer that `malloc` returns
is modelled filled with zeros; `readbuf` is never read before `read` has
stored into it. -/
def main_play (wide : Bool) (env : Env) (fd : Fd) : Run :=
  let o := open_stream wide env.dev "hw:MPD3" .PLAYBACK (352800 / SAMPLE_RATE_DIV wide)
    ⟨[], [], fd, [], []⟩
  if o.1 < 0 then o.2.ret o.1
  else
    let p := o.2.call env.dev .prepare
    if p.1 < 0 then (p.2.emit (.cannot_prepare p.1)).ret p.1
    else if !env.malloc_playbuf then (p.2.emit (.unable_to_malloc (BUFSIZE wide))).ret (-1)
    else if !env.malloc_readbuf then (p.2.emit (.unable_to_malloc (BUFSIZE wide))).ret (-1)
    else
      main_finish env.dev (transfer_loop wide env.dev
        { p.2 with readbuf := List.replicate (BUFSIZE wide) 0,
                   playbuf := List.replicate (BUFSIZE wide) 0 })

/-- The function `main(argc, argv)`; `EXIT_FAILURE` is `1` and a failed `open`
returns `-1`. -/
def main (wide : Bool) (env : Env) : Run :=
  if env.argv.length < 2 then ⟨1, [], [.usage env.argv.head?], none⟩
  else
    match env.file with
    | none => ⟨-1, [], [.unable_to_open_file], none⟩
    | some content =>
      if ends_in_dff (env.argv.getD 1 "") then
        if (dff_fast_forward (Fd.opened content)).1 < 0 then
          ⟨(dff_fast_forward (Fd.opened content)).1, [], [],
            some (dff_fast_forward (Fd.opened content)).2⟩
        else main_play wide env (dff_fast_forward (Fd.opened content)).2
      else main_play wide env (Fd.opened content)

/-! ## Reading the log -/

/-- The state a pass through the loop body ends in. -/
def Step.sys : Step → Sys
  | .brk s => s
  | .cont s => s

/-- Whether a pass through the loop body ended at a `break`. -/
def Step.is_brk : Step → Bool
  | .brk _ => true
  | .cont _ => false

/-- The `snd_pcm_writei` calls of a log, in order: the data and the frame
count of each. -/
def writes : List Call → List (List Byte × Nat)
  | [] => []
  | .writei data size :: cs => (data, size) :: writes cs
  | _ :: cs => writes cs

/-- The calls `main` makes only after `open_stream` has succeeded. -/
def Call.is_streaming : Call → Bool
  | .prepare => true
  | .wait _ => true
  | .avail_update => true
  | .writei _ _ => true
  | _ => false

/-- The function `open_stream` as a walk over `setup_steps`: a step with a
diagnostic is a checked block, a step without one is a plain call. -/
def run_steps (dev : Device) (name dirname : String) :
    List (Call × Option String) → Sys → Int × Sys
  | [], s => (0, s)
  | (c, some text) :: rest, s => checked dev name dirname c text (run_steps dev name dirname rest) s
  | (c, none) :: rest, s => run_steps dev name dirname rest (s.call dev c).2

/-- The file as `main` hands it to the loop: after `dff_fast_forward` when the
name ends in `.dff`, freshly opened otherwise. -/
def start_fd (name : String) (content : List Byte) : Fd :=
  if ends_in_dff name then (dff_fast_forward (Fd.opened content)).2 else Fd.opened content

/-- The arguments `main` passes to `open_stream`, as the list of its steps. -/
def main_steps (wide : Bool) : List (Call × Option String) :=
  setup_steps wide "hw:MPD3" .PLAYBACK (352800 / SAMPLE_RATE_DIV wide)

/-- The state in which `main` enters the loop when stream setup,
`snd_pcm_prepare` and both `malloc` calls have succeeded. -/
def loop_entry (wide : Bool) (fd : Fd) : Sys :=
  ⟨(main_steps wide).map Prod.fst ++ [.prepare], [], fd,
    List.replicate (BUFSIZE wide) 0, List.replicate (BUFSIZE wide) 0⟩

/-! ## Example devices -/

/-- A device that accepts every call, signals readiness on every wait and
always reports a capacity of `c` frames. -/
def dev_ready (c : Int) : Device := fun tr =>
  match tr.getLast? with
  | some .avail_update => c
  | some (.wait _) => 1
  | _ => 0

/-- A device on which every `snd_pcm_wait` times out (returns `0`) while one
frame of capacity is reported all the same. -/
def dev_timeout : Device := fun tr =>
  match tr.getLast? with
  | some .avail_update => 1
  | _ => 0

/-- A device on which `snd_pcm_wait` fails with `-5` (`-EIO`). -/
def dev_wait_error : Device := fun tr =>
  match tr.getLast? with
  | some (.wait _) => -5
  | _ => 0

/-- A device that rejects the sample format with code `-22` and accepts every
other call. -/
def dev_no_format : Device := fun tr =>
  match tr.getLast? with
  | some (.hw_params_set_format _) => -22
  | _ => 0

/-! ## The container scanner: lemmas -/

/-- Shifting a byte in is multiplication by 256 modulo `2^32` plus the byte. -/
theorem shift_in_eq (h : Nat) (b : Byte) :
    shift_in h b = (h * 256) % 4294967296 + b.val := by
  unfold shift_in
  have hb : b.val < 2 ^ 8 := b.isLt
  have h1 : (h <<< 8) % 2 ^ 32 = 2 ^ 8 * (h % 2 ^ 24) := by
    rw [Nat.shiftLeft_eq]
    norm_num
    omega
  rw [h1, ← Nat.mul_add_lt_is_or hb]
  norm_num
  omega

/-- The window after one more byte. -/
theorem window_snoc (p : List Byte) (b : Byte) : window (p ++ [b]) = shift_in (window p) b := by
  simp [window, List.foldl_append]

/-- Fewer than four bytes leave the top byte of the window zero. -/
theorem window_short (p : List Byte) (hp : p.length < 4) : window p < 16777216 := by
  match p, hp with
  | [], _ => simp [window]
  | [a], _ =>
    have := a.isLt
    simp only [window, List.foldl, shift_in_eq]; omega
  | [a, b], _ =>
    have := a.isLt
    have := b.isLt
    simp only [window, List.foldl, shift_in_eq]; omega
  | [a, b, c], _ =>
    have := a.isLt
    have := b.isLt
    have := c.isLt
    simp only [window, List.foldl, shift_in_eq]; omega

/-- After four or more bytes the window holds the last four, big-endian. -/
theorem window_last4 (q : List Byte) (a b c d : Byte) :
    window (q ++ [a, b, c, d]) = a.val * 16777216 + b.val * 65536 + c.val * 256 + d.val := by
  have := a.isLt
  have := b.isLt
  have := c.isLt
  have := d.isLt
  simp only [window, List.foldl_append, List.foldl, shift_in_eq]
  omega

/-- A list is shorter than four or ends in four elements. -/
theorem short_or_last4 (p : List Byte) :
    p.length < 4 ∨ ∃ q a b c d, p = q ++ [a, b, c, d] := by
  rcases List.eq_nil_or_concat p with rfl | ⟨p1, d, rfl⟩
  · left; simp
  rcases List.eq_nil_or_concat p1 with rfl | ⟨p2, c, rfl⟩
  · left; simp
  rcases List.eq_nil_or_concat p2 with rfl | ⟨p3, b, rfl⟩
  · left; simp
  rcases List.eq_nil_or_concat p3 with rfl | ⟨q, a, rfl⟩
  · left; simp
  · right; exact ⟨q, a, b, c, d, by simp⟩

/-- The window equals the constant exactly when the bytes read end in the marker. -/
theorem window_eq_mark_iff (p : List Byte) : window p = DSD_MARK ↔ marker <:+ p := by
  rcases short_or_last4 p with hp | ⟨q, a, b, c, d, rfl⟩
  · constructor
    · intro h
      have := window_short p hp
      simp [DSD_MARK] at h
      omega
    · intro h
      have := h.length_le
      simp [marker] at this
      omega
  · rw [window_last4]
    have ha := a.isLt
    have hb := b.isLt
    have hc := c.isLt
    have hd := d.isLt
    constructor
    · intro h
      simp only [DSD_MARK] at h
      have e1 : a = 0x44 := Fin.ext (by show a.val = 68; omega)
      have e2 : b = 0x53 := Fin.ext (by show b.val = 83; omega)
      have e3 : c = 0x44 := Fin.ext (by show c.val = 68; omega)
      have e4 : d = 0x20 := Fin.ext (by show d.val = 32; omega)
      subst e1 e2 e3 e4
      exact List.suffix_append _ _
    · rintro ⟨t, ht⟩
      have := (List.append_inj' ht (by simp [marker])).2
      simp only [marker, List.cons.injEq, and_true] at this
      obtain ⟨rfl, rfl, rfl, rfl⟩ := this
      rfl

/-- While no byte of `pre` completes the marker, the loop just shifts the bytes in. -/
theorem dff_scan_skip (pre rest : List Byte) (h pos : Nat)
    (hno : ∀ k, k < pre.length → (pre.take (k + 1)).foldl shift_in h ≠ DSD_MARK) :
    dff_scan h pos (pre ++ rest) = dff_scan (pre.foldl shift_in h) (pos + pre.length) rest := by
  induction pre generalizing h pos with
  | nil => simp
  | cons b pre ih =>
    have h0 := hno 0 (by simp)
    simp only [List.take_succ_cons, List.take_zero, List.foldl_cons, List.foldl_nil] at h0
    simp only [List.cons_append, dff_scan, h0, if_false, List.foldl_cons, List.length_cons,
      List.append_eq]
    rw [ih]
    · congr 1; omega
    · intro k hk
      have := hno (k + 1) (by simpa using hk)
      simpa using this

/-- At end of file the scan returns `0`. -/
theorem dff_scan_eof (bs : List Byte) :
    dff_scan (window bs) bs.length [] = (0, ⟨bs.length, []⟩) := by
  simp [dff_scan]

/-- What the scan returns when the first occurrence of the marker starts at
offset `pre.length`. -/
theorem dff_scan_found (pre tail : List Byte) (hfirst : ¬ marker <:+: pre ++ [0x44, 0x53, 0x44]) :
    dff_fast_forward (Fd.opened (pre ++ marker ++ tail))
      = (((tail.take 8).length : Int), ⟨pre.length + 4 + (tail.take 8).length, tail.drop 8⟩) := by
  have hsplit : pre ++ marker ++ tail = (pre ++ [0x44, 0x53, 0x44]) ++ (0x20 :: tail) := by
    simp [marker]
  unfold dff_fast_forward Fd.opened
  simp only []
  rw [hsplit, dff_scan_skip]
  · have hw : shift_in ((pre ++ [0x44, 0x53, 0x44]).foldl shift_in 0) 0x20 = DSD_MARK := by
      have := (window_eq_mark_iff (pre ++ [0x44, 0x53, 0x44] ++ [0x20])).2
        ⟨pre, by simp [marker]⟩
      rwa [window_snoc] at this
    simp only [dff_scan, hw, if_true, Fd.read]
    simp
  · intro k hk hm
    apply hfirst
    have hm2 : window ((pre ++ [0x44, 0x53, 0x44]).take (k + 1)) = DSD_MARK := hm
    have := (window_eq_mark_iff ((pre ++ [0x44, 0x53, 0x44]).take (k + 1))).1 hm2
    exact this.isInfix.trans (List.take_prefix _ _).isInfix

/-- What the scan returns when the marker does not occur at all. -/
theorem dff_scan_absent (bs : List Byte) (habs : ¬ marker <:+: bs) :
    dff_fast_forward (Fd.opened bs) = (0, ⟨bs.length, []⟩) := by
  unfold dff_fast_forward Fd.opened
  simp only []
  have := dff_scan_skip bs [] 0 0 (by
    intro k hk hm
    apply habs
    have hm2 : window (bs.take (k + 1)) = DSD_MARK := hm
    have := (window_eq_mark_iff (bs.take (k + 1))).1 hm2
    exact this.isInfix.trans (List.take_prefix _ _).isInfix)
  simp only [List.append_nil] at this
  rw [this]
  simp [dff_scan]

/-! ## The layout loop, `open_stream`, the loop body and `main`: lemmas -/

theorem quad_set (pb : List Byte) (i : Nat) (a b c d : Byte) (hi : i + 3 < pb.length) :
    let pb1 := (((pb.set (i + 0) a).set (i + 1) b).set (i + 2) c).set (i + 3) d
    pb1.length = pb.length ∧
    pb1[i]? = some a ∧ pb1[i + 1]? = some b ∧ pb1[i + 2]? = some c ∧ pb1[i + 3]? = some d ∧
    ∀ j, (j < i ∨ i + 4 ≤ j) → pb1[j]? = pb[j]? := by
  intro pb1
  refine ⟨by simp [pb1], ?_, ?_, ?_, ?_, ?_⟩
  · simp [pb1, List.getElem?_set]; omega
  · simp [pb1, List.getElem?_set]; omega
  · simp [pb1, List.getElem?_set]; omega
  · simp [pb1, List.getElem?_set]; omega
  · intro j hj
    simp only [pb1, List.getElem?_set]
    rw [if_neg (by omega), if_neg (by omega), if_neg (by omega), if_neg (by omega)]

theorem layout_loop_spec (n : Nat) (rb : List Byte) (hn : n % 4 = 0) (i : Nat)
    (st : List Byte × List Nat) (hi : i % 4 = 0) (hlen : n ≤ st.1.length) :
    (layout_loop n rb i st).1.length = st.1.length ∧
    (∀ k, i ≤ 4 * k → 4 * k < n →
      (layout_loop n rb i st).1[4 * k]? = some (rb.getD (4 * k + 2) 0) ∧
      (layout_loop n rb i st).1[4 * k + 1]? = some (rb.getD (4 * k) 0) ∧
      (layout_loop n rb i st).1[4 * k + 2]? = some (rb.getD (4 * k + 3) 0) ∧
      (layout_loop n rb i st).1[4 * k + 3]? = some (rb.getD (4 * k + 1) 0)) ∧
    (∀ j, (j < i ∨ n ≤ j) → (layout_loop n rb i st).1[j]? = st.1[j]?) ∧
    (∀ x ∈ (layout_loop n rb i st).2, x ∈ st.2 ∨ x < n) := by
  induction i, st using layout_loop.induct n rb with
  | case1 i st hlt ih =>
    have hi3 : i + 3 < st.1.length := by omega
    obtain ⟨q0, q1, q2, q3, q4, q5⟩ := quad_set st.1 i (rb.getD (i + 2) 0) (rb.getD (i + 0) 0)
      (rb.getD (i + 3) 0) (rb.getD (i + 1) 0) hi3
    obtain ⟨h1, h2, h3, h4⟩ := ih (by omega) (by simp only []; omega)
    rw [layout_loop, if_pos hlt]
    refine ⟨by rw [h1]; exact q0, ?_, ?_, ?_⟩
    · intro k hk1 hk2
      by_cases hk : i + 4 ≤ 4 * k
      · exact h2 k hk hk2
      · have hki : 4 * k = i := by omega
        rw [hki]
        rw [h3 i (by omega), h3 (i + 1) (by omega), h3 (i + 2) (by omega), h3 (i + 3) (by omega)]
        exact ⟨q1, q2, q3, q4⟩
    · intro j hj
      rw [h3 j (by omega)]
      exact q5 j (by omega)
    · intro x hx
      rcases h4 x hx with h | h
      · simp only [List.mem_append, List.mem_cons, List.mem_singleton, List.not_mem_nil,
          or_false] at h
        rcases h with h | h
        · exact Or.inl h
        · right; omega
      · exact Or.inr h
  | case2 i st hge =>
    rw [layout_loop, if_neg hge]
    refine ⟨rfl, ?_, fun _ _ => rfl, fun x hx => Or.inl hx⟩
    intro k hk1 hk2
    omega

theorem open_stream_eq_run_steps (wide : Bool) (dev : Device) (name : String) (dir : Dir)
    (rate : Nat) (s : Sys) :
    open_stream wide dev name dir rate s
      = run_steps dev name (dirname_of dir) (setup_steps wide name dir rate) s := rfl

theorem run_steps_ok (dev : Device) (name dirname : String) (steps : List (Call × Option String))
    (s : Sys)
    (hok : ∀ j cj tj, steps[j]? = some (cj, some tj) →
      0 ≤ dev (s.calls ++ (steps.take (j + 1)).map Prod.fst)) :
    run_steps dev name dirname steps s = (0, { s with calls := s.calls ++ steps.map Prod.fst }) := by
  induction steps generalizing s with
  | nil => simp [run_steps]
  | cons st rest ih =>
    obtain ⟨c, t⟩ := st
    have hrest : ∀ j cj tj, rest[j]? = some (cj, some tj) →
        0 ≤ dev ((s.call dev c).2.calls ++ (rest.take (j + 1)).map Prod.fst) := by
      intro j cj tj hj
      have := hok (j + 1) cj tj (by simpa using hj)
      simpa [Sys.call] using this
    cases t with
    | none =>
      rw [run_steps, ih _ hrest]
      simp [Sys.call]
    | some text =>
      have h0 := hok 0 c text (by simp)
      simp only [zero_add, List.take_succ_cons, List.take_zero, List.map_cons, List.map_nil] at h0
      rw [run_steps, checked, if_neg (by simpa [Sys.call] using h0), ih _ hrest]
      simp [Sys.call]

theorem run_steps_fail (dev : Device) (name dirname : String)
    (steps : List (Call × Option String)) (s : Sys) (k : Nat) (c : Call) (text : String) (e : Int)
    (hk : steps[k]? = some (c, some text))
    (hok : ∀ j cj tj, j < k → steps[j]? = some (cj, some tj) →
      0 ≤ dev (s.calls ++ (steps.take (j + 1)).map Prod.fst))
    (he : dev (s.calls ++ (steps.take (k + 1)).map Prod.fst) = e) (hneg : e < 0) :
    run_steps dev name dirname steps s
      = (e, { s with calls := s.calls ++ (steps.take (k + 1)).map Prod.fst,
                     err_out := s.err_out ++ [.stage name dirname text e] }) := by
  induction steps generalizing s k with
  | nil => simp at hk
  | cons st rest ih =>
    obtain ⟨c0, t0⟩ := st
    cases k with
    | zero =>
      simp only [List.getElem?_cons_zero, Option.some.injEq, Prod.mk.injEq] at hk
      obtain ⟨rfl, rfl⟩ := hk
      simp only [zero_add, List.take_succ_cons, List.take_zero, List.map_cons, List.map_nil] at he
      rw [run_steps, checked, if_pos (by simpa [Sys.call, he] using hneg)]
      simp [Sys.call, Sys.emit, he]
    | succ k =>
      have hrest : ∀ j cj tj, j < k → rest[j]? = some (cj, some tj) →
          0 ≤ dev ((s.call dev c0).2.calls ++ (rest.take (j + 1)).map Prod.fst) := by
        intro j cj tj hjk hj
        have := hok (j + 1) cj tj (by omega) (by simpa using hj)
        simpa [Sys.call] using this
      have hk2 : rest[k]? = some (c, some text) := by simpa using hk
      have he2 : dev ((s.call dev c0).2.calls ++ (rest.take (k + 1)).map Prod.fst) = e := by
        simpa [Sys.call] using he
      cases t0 with
      | none =>
        rw [run_steps, ih _ k hk2 hrest he2]
        simp [Sys.call]
      | some text0 =>
        have h0 := hok 0 c0 text0 (by omega) (by simp)
        simp only [zero_add, List.take_succ_cons, List.take_zero, List.map_cons,
          List.map_nil] at h0
        rw [run_steps, checked, if_neg (by simpa [Sys.call] using h0), ih _ k hk2 hrest he2]
        simp [Sys.call]

theorem transfer_loop_brk (wide : Bool) (dev : Device) (s s1 : Sys)
    (h : loop_body wide dev s = .brk s1) : transfer_loop wide dev s = s1 := by
  rw [transfer_loop]
  split
  · rename_i s2 h2
    rw [h] at h2
    cases h2
    rfl
  · rename_i s2 h2
    rw [h] at h2
    cases h2

theorem transfer_loop_cont (wide : Bool) (dev : Device) (s s1 : Sys)
    (h : loop_body wide dev s = .cont s1) :
    transfer_loop wide dev s = transfer_loop wide dev s1 := by
  rw [transfer_loop]
  split
  · rename_i s2 h2
    rw [h] at h2
    cases h2
  · rename_i s2 h2
    rw [h] at h2
    cases h2
    rfl

theorem loop_body_wait_error (wide : Bool) (dev : Device) (s : Sys)
    (hw : dev (s.calls ++ [.wait 1000]) < 0) :
    loop_body wide dev s
      = .brk { s with calls := s.calls ++ [.wait 1000], err_out := s.err_out ++ [.poll_failed] } := by
  simp only [loop_body, Sys.call, Sys.emit]
  rw [if_pos hw]

theorem loop_body_no_capacity (wide : Bool) (dev : Device) (s : Sys)
    (hw : 0 ≤ dev (s.calls ++ [.wait 1000]))
    (hc : to_int32 (dev (s.calls ++ [.wait 1000] ++ [.avail_update])) ≤ 0) :
    loop_body wide dev s
      = .brk { s with calls := s.calls ++ [.wait 1000] ++ [.avail_update] } := by
  simp only [loop_body, Sys.call]
  rw [if_neg (by omega)]
  by_cases h0 : to_int32 (dev (s.calls ++ [.wait 1000] ++ [.avail_update])) = 0
  · rw [if_pos h0]
  · rw [if_neg h0, if_pos (by omega)]

theorem loop_body_capacity (wide : Bool) (dev : Device) (s : Sys)
    (hw : 0 ≤ dev (s.calls ++ [.wait 1000]))
    (hc : 0 < to_int32 (dev (s.calls ++ [.wait 1000] ++ [.avail_update]))) :
    loop_body wide dev s
      = read_and_play wide dev
          (clamp (to_int32 (dev (s.calls ++ [.wait 1000] ++ [.avail_update])))).toNat
          { s with calls := s.calls ++ [.wait 1000] ++ [.avail_update] } := by
  simp only [loop_body, Sys.call]
  rw [if_neg (by omega), if_neg (by omega), if_neg (by omega)]

theorem clamp_range (x : Int) (hx : 0 < x) :
    1 ≤ (clamp x).toNat ∧ (clamp x).toNat ≤ FRAMECOUNT := by
  unfold clamp
  split <;> simp [FRAMECOUNT] at *
  omega

theorem read_and_play_short (wide : Bool) (dev : Device) (frames : Nat) (s : Sys)
    (hshort : (s.fd.read (frames * SAMPLE_SIZE wide * CHANNELCOUNT)).1.length
      ≠ frames * SAMPLE_SIZE wide * CHANNELCOUNT) :
    read_and_play wide dev frames s
      = .brk { s with
          fd := (s.fd.read (frames * SAMPLE_SIZE wide * CHANNELCOUNT)).2,
          readbuf := (s.fd.read (frames * SAMPLE_SIZE wide * CHANNELCOUNT)).1
            ++ s.readbuf.drop (s.fd.read (frames * SAMPLE_SIZE wide * CHANNELCOUNT)).1.length } := by
  simp only [read_and_play]
  rw [if_pos hshort]

theorem frames_to_bytes_eq (wide : Bool) (frames : Nat) :
    frames_to_bytes wide (frames * CHANNELCOUNT) = frames * SAMPLE_SIZE wide * CHANNELCOUNT := by
  cases wide <;> simp [frames_to_bytes, ALSA_FORMAT, sample_bytes, SAMPLE_SIZE, CHANNELCOUNT]
  omega

theorem transfer_loop_stop (wide : Bool) (dev : Device) (s : Sys)
    (h : (loop_body wide dev s).is_brk = true) :
    transfer_loop wide dev s = (loop_body wide dev s).sys := by
  cases hb : loop_body wide dev s with
  | brk s1 => exact transfer_loop_brk wide dev s s1 hb
  | cont s1 => rw [hb] at h; cases h

theorem transfer_loop_next (wide : Bool) (dev : Device) (s : Sys)
    (h : (loop_body wide dev s).is_brk = false) :
    transfer_loop wide dev s = transfer_loop wide dev (loop_body wide dev s).sys := by
  cases hb : loop_body wide dev s with
  | brk s1 => rw [hb] at h; cases h
  | cont s1 => exact transfer_loop_cont wide dev s s1 hb

/-- A whole chunk read in the 8-bit configuration is passed on unchanged. -/
theorem read_and_play_full_narrow (dev : Device) (frames : Nat) (s : Sys)
    (hfull : frames * SAMPLE_SIZE false * CHANNELCOUNT ≤ s.fd.rest.length) :
    (read_and_play false dev frames s).is_brk = false ∧
    (read_and_play false dev frames s).sys.calls
      = s.calls ++ [.writei (s.fd.rest.take (frames * SAMPLE_SIZE false * CHANNELCOUNT))
        (frames * CHANNELCOUNT)] ∧
    (read_and_play false dev frames s).sys.err_out = s.err_out ∧
    (read_and_play false dev frames s).sys.fd
      = ⟨s.fd.pos + frames * SAMPLE_SIZE false * CHANNELCOUNT,
        s.fd.rest.drop (frames * SAMPLE_SIZE false * CHANNELCOUNT)⟩ := by
  have hlen : (s.fd.rest.take (frames * SAMPLE_SIZE false * CHANNELCOUNT)).length
      = frames * SAMPLE_SIZE false * CHANNELCOUNT := by
    rw [List.length_take]; omega
  simp only [read_and_play, Fd.read]
  rw [if_neg (by rw [hlen]; simp), if_neg (by simp [SAMPLE_SIZE])]
  simp only [Step.is_brk, Step.sys, Sys.call, frames_to_bytes_eq, memcpy, hlen, true_and]
  refine ⟨?_, trivial⟩
  congr 3
  rw [List.take_append_of_le_length (by rw [List.length_take, List.length_append, hlen]; omega)]
  rw [List.take_take, Nat.min_self, List.take_append_of_le_length (by omega), List.take_take,
    Nat.min_self]

theorem dff_scan_nonneg (h pos : Nat) (l : List Byte) : 0 ≤ (dff_scan h pos l).1 := by
  induction l generalizing h pos with
  | nil => simp [dff_scan]
  | cons b l ih =>
    rw [dff_scan]
    split
    · exact Int.ofNat_nonneg _
    · exact ih _ _

theorem main_eq_main_play (wide : Bool) (env : Env) (content : List Byte)
    (hargs : 2 ≤ env.argv.length) (hfile : env.file = some content) :
    main wide env = main_play wide env (start_fd (env.argv.getD 1 "") content) := by
  unfold main start_fd
  rw [if_neg (by omega), hfile]
  simp only []
  split
  · rw [if_neg (by
      have := dff_scan_nonneg 0 (Fd.opened content).pos (Fd.opened content).rest
      unfold dff_fast_forward
      omega)]
  · rfl

theorem main_steps_not_streaming (wide : Bool) :
    ∀ c ∈ (main_steps wide).map Prod.fst, c.is_streaming = false := by
  intro c hc
  simp only [main_steps, setup_steps, List.map_cons, List.map_nil, List.mem_cons,
    List.mem_singleton, List.not_mem_nil, or_false] at hc
  rcases hc with h | h | h | h | h | h | h | h | h | h | h | h | h | h | h <;> subst h <;> rfl

/-- When every checked step and `snd_pcm_prepare` succeed and both buffers are
allocated, `main` reaches the loop. -/
theorem main_play_enters_loop (wide : Bool) (env : Env) (fd : Fd)
    (hsetup : ∀ j cj tj, (main_steps wide)[j]? = some (cj, some tj) →
      0 ≤ env.dev (((main_steps wide).take (j + 1)).map Prod.fst))
    (hprep : 0 ≤ env.dev ((main_steps wide).map Prod.fst ++ [.prepare]))
    (hm1 : env.malloc_playbuf = true) (hm2 : env.malloc_readbuf = true) :
    main_play wide env fd
      = main_finish env.dev (transfer_loop wide env.dev (loop_entry wide fd)) := by
  have ho := run_steps_ok env.dev "hw:MPD3" (dirname_of .PLAYBACK) (main_steps wide)
    ⟨[], [], fd, [], []⟩ (by simpa using hsetup)
  unfold main_play
  simp only [open_stream_eq_run_steps]
  rw [show setup_steps wide "hw:MPD3" .PLAYBACK (352800 / SAMPLE_RATE_DIV wide) = main_steps wide
    from rfl, ho]
  simp only [List.nil_append, Sys.call, hm1, hm2]
  rw [if_neg (by decide), if_neg (by omega)]
  simp [loop_entry]

/-- The first failing step of `open_stream`, for any arguments and any state. -/
theorem open_stream_fail (wide : Bool) (dev : Device) (name : String) (dir : Dir) (rate : Nat)
    (s : Sys) (k : Nat) (c : Call) (text : String) (e : Int)
    (hk : (setup_steps wide name dir rate)[k]? = some (c, some text))
    (hok : ∀ j cj tj, j < k → (setup_steps wide name dir rate)[j]? = some (cj, some tj) →
      0 ≤ dev (s.calls ++ setup_calls wide name dir rate (j + 1)))
    (he : dev (s.calls ++ setup_calls wide name dir rate (k + 1)) = e) (hneg : e < 0) :
    open_stream wide dev name dir rate s
      = (e, { s with calls := s.calls ++ setup_calls wide name dir rate (k + 1),
                     err_out := s.err_out ++ [.stage name (dirname_of dir) text e] }) := by
  rw [open_stream_eq_run_steps]
  exact run_steps_fail dev name (dirname_of dir) _ s k c text e hk hok he hneg

/-- A pass in which the sink has capacity but the file cannot fill the chunk. -/
theorem loop_body_short_read (wide : Bool) (dev : Device) (s : Sys)
    (hw : 0 ≤ dev (s.calls ++ [.wait 1000]))
    (hc : 0 < to_int32 (dev (s.calls ++ [.wait 1000] ++ [.avail_update])))
    (hshort : s.fd.rest.length
      < (clamp (to_int32 (dev (s.calls ++ [.wait 1000] ++ [.avail_update])))).toNat
          * SAMPLE_SIZE wide * CHANNELCOUNT) :
    (loop_body wide dev s).is_brk = true ∧
    (loop_body wide dev s).sys.calls = s.calls ++ [.wait 1000, .avail_update] ∧
    (loop_body wide dev s).sys.err_out = s.err_out ∧
    (loop_body wide dev s).sys.playbuf = s.playbuf ∧
    (loop_body wide dev s).sys.fd = ⟨s.fd.pos + s.fd.rest.length, []⟩ := by
  rw [loop_body_capacity wide dev s hw hc, read_and_play_short]
  · simp only [Step.is_brk, Step.sys, Fd.read, List.length_take, true_and]
    refine ⟨by simp, ?_⟩
    rw [Nat.min_eq_right (by omega), List.drop_eq_nil_of_le (by omega)]
  · simp only [Fd.read, List.length_take]
    omega

/-- A pass of the 8-bit configuration in which the file fills the chunk. -/
theorem loop_body_full_narrow (dev : Device) (s : Sys)
    (hw : 0 ≤ dev (s.calls ++ [.wait 1000]))
    (hc : 0 < to_int32 (dev (s.calls ++ [.wait 1000] ++ [.avail_update])))
    (hfull : (clamp (to_int32 (dev (s.calls ++ [.wait 1000] ++ [.avail_update])))).toNat
          * SAMPLE_SIZE false * CHANNELCOUNT ≤ s.fd.rest.length) :
    (loop_body false dev s).is_brk = false ∧
    (loop_body false dev s).sys.calls
      = s.calls ++ [.wait 1000, .avail_update,
          .writei (s.fd.rest.take
            ((clamp (to_int32 (dev (s.calls ++ [.wait 1000] ++ [.avail_update])))).toNat
              * SAMPLE_SIZE false * CHANNELCOUNT))
            ((clamp (to_int32 (dev (s.calls ++ [.wait 1000] ++ [.avail_update])))).toNat
              * CHANNELCOUNT)] ∧
    (loop_body false dev s).sys.err_out = s.err_out ∧
    (loop_body false dev s).sys.fd
      = ⟨s.fd.pos + (clamp (to_int32 (dev (s.calls ++ [.wait 1000] ++ [.avail_update])))).toNat
            * SAMPLE_SIZE false * CHANNELCOUNT,
          s.fd.rest.drop
            ((clamp (to_int32 (dev (s.calls ++ [.wait 1000] ++ [.avail_update])))).toNat
              * SAMPLE_SIZE false * CHANNELCOUNT)⟩ := by
  rw [loop_body_capacity false dev s hw hc]
  generalize (clamp (to_int32 (dev (s.calls ++ [.wait 1000] ++ [.avail_update])))).toNat = f
    at hfull ⊢
  have hfull2 : f * SAMPLE_SIZE false * CHANNELCOUNT
      ≤ ({ s with calls := s.calls ++ [.wait 1000] ++ [.avail_update] } : Sys).fd.rest.length :=
    hfull
  obtain ⟨h1, h2, h3, h4⟩ := read_and_play_full_narrow dev f
    { s with calls := s.calls ++ [.wait 1000] ++ [.avail_update] } hfull2
  refine ⟨h1, ?_, h3, h4⟩
  rw [h2]
  simp

/-- The 8-bit loop on a file that holds exactly one chunk of `f` frames, with
a sink whose wait succeeds and whose capacity clamps to `f` in both passes. -/
theorem transfer_one_chunk (dev : Device) (s : Sys) (f : Nat)
    (hwait : ∀ tr, 0 ≤ dev (tr ++ [.wait 1000]))
    (hav : ∀ tr, 0 < to_int32 (dev (tr ++ [.avail_update])) ∧
      (clamp (to_int32 (dev (tr ++ [.avail_update])))).toNat = f)
    (hlen : s.fd.rest.length = f * SAMPLE_SIZE false * CHANNELCOUNT) :
    (transfer_loop false dev s).calls
      = s.calls ++ [.wait 1000, .avail_update, .writei s.fd.rest (f * CHANNELCOUNT),
          .wait 1000, .avail_update] ∧
    (transfer_loop false dev s).err_out = s.err_out ∧
    (transfer_loop false dev s).fd = ⟨s.fd.pos + s.fd.rest.length, []⟩ := by
  have hf : 0 < f := by
    have := (clamp_range _ (hav []).1).1
    rw [(hav []).2] at this
    exact this
  obtain ⟨a1, a2, a3, a4⟩ := loop_body_full_narrow dev s (hwait _) (hav _).1
    (by rw [(hav _).2, hlen])
  rw [(hav _).2] at a2 a4
  rw [← hlen, List.take_length] at a2
  rw [← hlen, List.drop_length] at a4
  rw [transfer_loop_next false dev s a1]
  have hss : 0 < f * SAMPLE_SIZE false * CHANNELCOUNT := by
    simp [SAMPLE_SIZE, CHANNELCOUNT]; omega
  obtain ⟨b1, b2, b3, _, b5⟩ := loop_body_short_read false dev (loop_body false dev s).sys
    (hwait _) (hav _).1 (by rw [(hav _).2, a4]; simpa using hss)
  rw [transfer_loop_stop false dev _ b1, b2, b3, b5, a2, a3, a4]
  simp

theorem writes_append (a b : List Call) : writes (a ++ b) = writes a ++ writes b := by
  induction a with
  | nil => rfl
  | cons c a ih => cases c <;> simp [writes, ih]

theorem writes_main_steps (wide : Bool) : writes ((main_steps wide).map Prod.fst) = [] := by
  simp [main_steps, setup_steps, writes]

theorem writes_loop_entry (wide : Bool) (fd : Fd) : writes (loop_entry wide fd).calls = [] := by
  simp [loop_entry, writes_append, writes_main_steps, writes]

/-- A device that answers every call outside the streaming calls with a
non-negative code passes stream setup. -/
theorem setup_ok_of_accepts (wide : Bool) (dev : Device)
    (hacc : ∀ tr c, c.is_streaming = false → 0 ≤ dev (tr ++ [c])) :
    ∀ j cj tj, (main_steps wide)[j]? = some (cj, some tj) →
      0 ≤ dev (((main_steps wide).take (j + 1)).map Prod.fst) := by
  intro j cj tj hj
  have hlt : j < (main_steps wide).length := by
    by_contra hge
    rw [List.getElem?_eq_none (by omega)] at hj
    cases hj
  have hget : (main_steps wide)[j] = (cj, some tj) := by
    rw [List.getElem?_eq_getElem hlt] at hj
    exact Option.some.inj hj
  rw [List.take_succ, List.getElem?_eq_getElem hlt, hget]
  simp only [Option.toList, List.map_append, List.map_cons, List.map_nil]
  apply hacc
  apply main_steps_not_streaming wide
  rw [List.mem_map]
  exact ⟨(cj, some tj), by rw [← hget]; exact List.getElem_mem _, rfl⟩

/-- When the arguments name a file that opens, setup and `snd_pcm_prepare`
succeed and both buffers are allocated, `main` is the loop followed by the
closing calls. -/
theorem main_enters_loop (wide : Bool) (env : Env) (content : List Byte)
    (hargs : 2 ≤ env.argv.length) (hfile : env.file = some content)
    (hsetup : ∀ j cj tj, (main_steps wide)[j]? = some (cj, some tj) →
      0 ≤ env.dev (((main_steps wide).take (j + 1)).map Prod.fst))
    (hprep : 0 ≤ env.dev ((main_steps wide).map Prod.fst ++ [.prepare]))
    (hm1 : env.malloc_playbuf = true) (hm2 : env.malloc_readbuf = true) :
    main wide env = main_finish env.dev
      (transfer_loop wide env.dev (loop_entry wide (start_fd (env.argv.getD 1 "") content))) := by
  rw [main_eq_main_play wide env content hargs hfile,
    main_play_enters_loop wide env _ hsetup hprep hm1 hm2]

/-- A run whose first chunk cannot be filled from the file. -/
theorem main_first_read_short (wide : Bool) (env : Env) (content : List Byte)
    (hargs : 2 ≤ env.argv.length) (hfile : env.file = some content)
    (hsetup : ∀ j cj tj, (main_steps wide)[j]? = some (cj, some tj) →
      0 ≤ env.dev (((main_steps wide).take (j + 1)).map Prod.fst))
    (hprep : 0 ≤ env.dev ((main_steps wide).map Prod.fst ++ [.prepare]))
    (hm1 : env.malloc_playbuf = true) (hm2 : env.malloc_readbuf = true)
    (hw : 0 ≤ env.dev ((main_steps wide).map Prod.fst ++ [.prepare] ++ [.wait 1000]))
    (hc : 0 < to_int32 (env.dev ((main_steps wide).map Prod.fst ++ [.prepare] ++ [.wait 1000]
      ++ [.avail_update])))
    (hshort : (start_fd (env.argv.getD 1 "") content).rest.length
      < (clamp (to_int32 (env.dev ((main_steps wide).map Prod.fst ++ [.prepare] ++ [.wait 1000]
          ++ [.avail_update])))).toNat * SAMPLE_SIZE wide * CHANNELCOUNT) :
    main wide env
      = ⟨0, (main_steps wide).map Prod.fst ++ [.prepare, .wait 1000, .avail_update, .close], [],
          some ⟨(start_fd (env.argv.getD 1 "") content).pos
            + (start_fd (env.argv.getD 1 "") content).rest.length, []⟩⟩ := by
  obtain ⟨b1, b2, b3, _, b5⟩ := loop_body_short_read wide env.dev
    (loop_entry wide (start_fd (env.argv.getD 1 "") content)) hw hc hshort
  rw [main_enters_loop wide env content hargs hfile hsetup hprep hm1 hm2,
    transfer_loop_stop wide env.dev _ b1]
  simp only [main_finish, Sys.call, Sys.ret, b2, b3, b5]
  simp [loop_entry]

/-- A run of the 8-bit configuration on a file of exactly one chunk of `f`
frames. -/
theorem main_one_chunk (env : Env) (content : List Byte) (f : Nat)
    (hargs : 2 ≤ env.argv.length) (hfile : env.file = some content)
    (hsetup : ∀ j cj tj, (main_steps false)[j]? = some (cj, some tj) →
      0 ≤ env.dev (((main_steps false).take (j + 1)).map Prod.fst))
    (hprep : 0 ≤ env.dev ((main_steps false).map Prod.fst ++ [.prepare]))
    (hm1 : env.malloc_playbuf = true) (hm2 : env.malloc_readbuf = true)
    (hwait : ∀ tr, 0 ≤ env.dev (tr ++ [.wait 1000]))
    (hav : ∀ tr, 0 < to_int32 (env.dev (tr ++ [.avail_update])) ∧
      (clamp (to_int32 (env.dev (tr ++ [.avail_update])))).toNat = f)
    (hlen : (start_fd (env.argv.getD 1 "") content).rest.length
      = f * SAMPLE_SIZE false * CHANNELCOUNT) :
    main false env
      = ⟨0, (main_steps false).map Prod.fst ++ [.prepare, .wait 1000, .avail_update,
            .writei (start_fd (env.argv.getD 1 "") content).rest (f * CHANNELCOUNT),
            .wait 1000, .avail_update, .close], [],
          some ⟨(start_fd (env.argv.getD 1 "") content).pos
            + (start_fd (env.argv.getD 1 "") content).rest.length, []⟩⟩ := by
  obtain ⟨a1, a2, a3⟩ := transfer_one_chunk env.dev
    (loop_entry false (start_fd (env.argv.getD 1 "") content)) f hwait hav hlen
  rw [main_enters_loop false env content hargs hfile hsetup hprep hm1 hm2]
  simp only [main_finish, Sys.call, Sys.ret, a1, a2, a3]
  simp [loop_entry]

theorem dev_ready_accepts (c : Int) :
    ∀ tr x, x.is_streaming = false → 0 ≤ dev_ready c (tr ++ [x]) := by
  intro tr x hx
  cases x <;> simp_all [dev_ready, Call.is_streaming]

theorem dev_timeout_accepts : ∀ tr x, x.is_streaming = false → 0 ≤ dev_timeout (tr ++ [x]) := by
  intro tr x hx
  cases x <;> simp_all [dev_timeout, Call.is_streaming]

/-- A pass after the clamp submits nothing or one write of
`frames * CHANNELCOUNT` frames, and reads at most the chunk it asks for. -/
theorem read_and_play_writes (wide : Bool) (dev : Device) (frames : Nat) (s : Sys) :
    (writes (read_and_play wide dev frames s).sys.calls = writes s.calls ∨
      ∃ data, writes (read_and_play wide dev frames s).sys.calls
        = writes s.calls ++ [(data, frames * CHANNELCOUNT)]) ∧
    (read_and_play wide dev frames s).sys.fd.pos
      ≤ s.fd.pos + frames * SAMPLE_SIZE wide * CHANNELCOUNT := by
  simp only [read_and_play]
  split
  · refine ⟨Or.inl rfl, ?_⟩
    simp only [Step.sys, Fd.read, List.length_take]
    omega
  · refine ⟨Or.inr ?_, ?_⟩
    · simp only [Step.sys, Sys.call, writes_append, writes]
      exact ⟨_, rfl⟩
    · simp only [Step.sys, Sys.call, Fd.read, List.length_take]
      omega


/-- The first pass of the 8-bit loop on a file of one full chunk, with a sink
that reports 200000 free frames. -/
theorem first_pass_200000 (content : List Byte) (hlen : content.length = 524288) :
    dev_ready 200000 ((loop_entry false ⟨0, content⟩).calls
      ++ [.wait 1000] ++ [.avail_update]) = 200000 ∧
    writes (loop_body false (dev_ready 200000) (loop_entry false ⟨0, content⟩)).sys.calls
      = [(content, 262144)] := by
  have hav : dev_ready 200000 ((loop_entry false ⟨0, content⟩).calls
      ++ [.wait 1000] ++ [.avail_update]) = 200000 := by
    simp [dev_ready]
  have hcl : (clamp (to_int32 200000)).toNat = 131072 := by decide
  have h1 : (131072 * SAMPLE_SIZE false * CHANNELCOUNT) = 524288 := by decide
  have hrest : (loop_entry false ⟨0, content⟩).fd.rest = content := rfl
  have hfull := loop_body_full_narrow (dev_ready 200000)
    (loop_entry false ⟨0, content⟩) (by simp [dev_ready])
    (by rw [hav]; decide)
    (by rw [hav, hcl, h1, hrest, hlen])
  refine ⟨hav, ?_⟩
  rw [hfull.2.1, hav, hcl, writes_append, writes_loop_entry, h1, hrest, ← hlen,
    List.take_length]
  rfl


theorem to_int32_of_fits (c : Int) (h0 : 0 ≤ c) (h1 : c < 2 ^ 31) : to_int32 c = c := by
  unfold to_int32
  omega

theorem clamp_full (c : Int) (h0 : (FRAMECOUNT : Int) ≤ c) (h1 : c < 2 ^ 31) :
    0 < to_int32 c ∧ (clamp (to_int32 c)).toNat = FRAMECOUNT := by
  have hF : (FRAMECOUNT : Int) = 131072 := by decide
  rw [to_int32_of_fits c (by omega) h1]
  refine ⟨by omega, ?_⟩
  unfold clamp
  split
  · simp
  · have : c = (FRAMECOUNT : Int) := by omega
    rw [this]
    simp

/-- The run of the 8-bit configuration on a raw file of 262144 bytes with a
sink that always reports `FRAMECOUNT` free frames. -/
theorem half_chunk_run (content : List Byte) (hlen : content.length = 262144) :
    main false ⟨["dsd", "a.raw"], some content, dev_ready 131072, true, true⟩
      = ⟨0, (main_steps false).map Prod.fst ++ [.prepare, .wait 1000, .avail_update, .close],
          [], some ⟨262144, []⟩⟩ := by
  have hcl : (clamp (to_int32 131072)).toNat = 131072 := by decide
  have hfd : start_fd "a.raw" content = ⟨0, content⟩ := rfl
  have hd : dev_ready 131072 ((main_steps false).map Prod.fst ++ [.prepare]
      ++ [.wait 1000] ++ [.avail_update]) = 131072 := by simp [dev_ready]
  have h := main_first_read_short false
    ⟨["dsd", "a.raw"], some content, dev_ready 131072, true, true⟩ content
    (by dsimp only; decide) rfl (setup_ok_of_accepts false _ (dev_ready_accepts 131072))
    (by dsimp only; decide) rfl rfl (by dsimp only; decide)
    (by dsimp only; rw [hd]; decide)
    (by
      dsimp only [List.getD_cons_succ, List.getD_cons_zero]
      rw [hd, hcl, hfd]
      dsimp only
      rw [hlen]
      decide)
  rw [h]
  dsimp only [List.getD_cons_succ, List.getD_cons_zero]
  rw [hfd]
  dsimp only
  rw [hlen]


/-- The layout loop on a chunk of `n` bytes, `n` a multiple of 4, held in
buffers of at least `n` bytes: the output chunk has length `n`, every group
`[L0, R0, L1, R1]` comes out as `[L1, L0, R1, R0]`, and every index accessed is
below `n`. -/
theorem layout_loop_groups (n : Nat) (readbuf playbuf : List Byte)
    (hn : n % 4 = 0) (hr : n ≤ readbuf.length) (hp : n ≤ playbuf.length) :
    ((layout_loop n readbuf 0 (playbuf, [])).1.take n).length = n ∧
    (∀ k, k < n / 4 → ∃ L0 R0 L1 R1 : Byte,
      readbuf[4 * k]? = some L0 ∧ readbuf[4 * k + 1]? = some R0 ∧
      readbuf[4 * k + 2]? = some L1 ∧ readbuf[4 * k + 3]? = some R1 ∧
      ((layout_loop n readbuf 0 (playbuf, [])).1.take n)[4 * k]? = some L1 ∧
      ((layout_loop n readbuf 0 (playbuf, [])).1.take n)[4 * k + 1]? = some L0 ∧
      ((layout_loop n readbuf 0 (playbuf, [])).1.take n)[4 * k + 2]? = some R1 ∧
      ((layout_loop n readbuf 0 (playbuf, [])).1.take n)[4 * k + 3]? = some R0) ∧
    (∀ x ∈ (layout_loop n readbuf 0 (playbuf, [])).2, x < n) := by
  obtain ⟨h1, h2, _, h4⟩ := layout_loop_spec n readbuf hn 0 (playbuf, []) (by simp) hp
  refine ⟨?_, ?_, ?_⟩
  · rw [List.length_take, h1]
    simp only []
    omega
  · intro k hk
    obtain ⟨a, b, c, d⟩ := h2 k (by omega) (by omega)
    refine ⟨readbuf.getD (4 * k) 0, readbuf.getD (4 * k + 1) 0, readbuf.getD (4 * k + 2) 0,
      readbuf.getD (4 * k + 3) 0, ?_, ?_, ?_, ?_, ?_, ?_, ?_, ?_⟩
    · rw [List.getD_eq_getElem?_getD, List.getElem?_eq_getElem (by omega)]; rfl
    · rw [List.getD_eq_getElem?_getD, List.getElem?_eq_getElem (by omega)]; rfl
    · rw [List.getD_eq_getElem?_getD, List.getElem?_eq_getElem (by omega)]; rfl
    · rw [List.getD_eq_getElem?_getD, List.getElem?_eq_getElem (by omega)]; rfl
    · rw [List.getElem?_take, if_pos (by omega)]; exact a
    · rw [List.getElem?_take, if_pos (by omega)]; exact b
    · rw [List.getElem?_take, if_pos (by omega)]; exact c
    · rw [List.getElem?_take, if_pos (by omega)]; exact d
  · intro x hx
    rcases h4 x hx with h | h
    · simp at h
    · exact h


/-- A whole chunk read in the 16-bit configuration goes through the layout
loop before it is written. -/
theorem read_and_play_full_wide (dev : Device) (frames : Nat) (s : Sys)
    (hfull : frames * SAMPLE_SIZE true * CHANNELCOUNT ≤ s.fd.rest.length) :
    (read_and_play true dev frames s).is_brk = false ∧
    (read_and_play true dev frames s).sys.readbuf
      = s.fd.rest.take (frames * SAMPLE_SIZE true * CHANNELCOUNT)
        ++ s.readbuf.drop (frames * SAMPLE_SIZE true * CHANNELCOUNT) ∧
    (read_and_play true dev frames s).sys.playbuf
      = (layout_loop (frames * SAMPLE_SIZE true * CHANNELCOUNT)
          (s.fd.rest.take (frames * SAMPLE_SIZE true * CHANNELCOUNT)
            ++ s.readbuf.drop (frames * SAMPLE_SIZE true * CHANNELCOUNT)) 0 (s.playbuf, [])).1 ∧
    (read_and_play true dev frames s).sys.calls
      = s.calls ++ [.writei
          ((layout_loop (frames * SAMPLE_SIZE true * CHANNELCOUNT)
            (s.fd.rest.take (frames * SAMPLE_SIZE true * CHANNELCOUNT)
              ++ s.readbuf.drop (frames * SAMPLE_SIZE true * CHANNELCOUNT)) 0
            (s.playbuf, [])).1.take (frames * SAMPLE_SIZE true * CHANNELCOUNT))
          (frames * CHANNELCOUNT)] := by
  have hlen : (s.fd.rest.take (frames * SAMPLE_SIZE true * CHANNELCOUNT)).length
      = frames * SAMPLE_SIZE true * CHANNELCOUNT := by
    rw [List.length_take]; omega
  simp only [read_and_play, Fd.read]
  rw [if_neg (by rw [hlen]; simp), if_pos (by simp [SAMPLE_SIZE])]
  simp only [Step.is_brk, Step.sys, Sys.call, frames_to_bytes_eq, hlen, true_and]

/-- The layout loop on a chunk of two groups, evaluated. -/
theorem layout_loop_two_groups :
    layout_loop 8 [1, 2, 3, 4, 5, 6, 7, 8] 0 ([0, 0, 0, 0, 0, 0, 0, 0], [])
      = ([3, 1, 4, 2, 7, 5, 8, 6], [0, 2, 1, 0, 2, 3, 3, 1, 4, 6, 5, 4, 6, 7, 7, 5]) := by
  rw [layout_loop, if_pos (by decide), layout_loop, if_pos (by decide), layout_loop,
    if_neg (by decide)]
  rfl

/-! ## Claims about `dff_fast_forward` -/

/-- C1: when the first occurrence of the marker `DSD ` starts at offset
`pre.length` and at least 8 bytes follow it, no prefix read before the last
byte of that occurrence makes the 32-bit window equal to the constant (also
not a prefix of fewer than 4 bytes), the window matches once the marker's last
byte is read, and `dff_fast_forward` then reads exactly the next 8 bytes: it
returns 8, which is non-negative, and leaves the file at offset
`pre.length + 4 + 8`, the byte right after those 8 bytes. -/
theorem dff_fast_forward_first_marker (pre tail : List Byte)
    (hfirst : ¬ marker <:+: pre ++ [0x44, 0x53, 0x44]) (htail : 8 ≤ tail.length) :
    (∀ p, p <+: pre ++ [0x44, 0x53, 0x44] → window p ≠ DSD_MARK) ∧
    window (pre ++ marker) = DSD_MARK ∧
    dff_fast_forward (Fd.opened (pre ++ marker ++ tail))
      = (8, ⟨pre.length + 4 + 8, tail.drop 8⟩) ∧
    0 ≤ (dff_fast_forward (Fd.opened (pre ++ marker ++ tail))).1 := by
  have hlen : (tail.take 8).length = 8 := by simp; omega
  have hres := dff_scan_found pre tail hfirst
  rw [hlen] at hres
  refine ⟨?_, ?_, hres, ?_⟩
  · intro p hp hm
    exact hfirst (((window_eq_mark_iff p).1 hm).isInfix.trans hp.isInfix)
  · exact (window_eq_mark_iff _).2 (List.suffix_append _ _)
  · rw [hres]
    exact Int.ofNat_nonneg 8

/-- C1 at a file that starts `D S` before the marker and has nine bytes after it. -/
theorem dff_fast_forward_first_marker_witness :
    (¬ marker <:+: ([0x44, 0x53] : List Byte) ++ [0x44, 0x53, 0x44]) ∧
    8 ≤ ([1, 2, 3, 4, 5, 6, 7, 8, 9] : List Byte).length ∧
    dff_fast_forward (Fd.opened ([0x44, 0x53] ++ marker ++ [1, 2, 3, 4, 5, 6, 7, 8, 9]))
      = (8, ⟨2 + 4 + 8, [9]⟩) :=
  ⟨by decide, by decide,
    (dff_fast_forward_first_marker [0x44, 0x53] [1, 2, 3, 4, 5, 6, 7, 8, 9]
      (by decide) (by decide)).2.2.1⟩

/-- C3 as stated fails: for the marker at offset 0 followed by 8 bytes the
marker's last byte is at offset `e = 3`, and the scanner leaves the file at
offset 12, not at `e + 1 + 12 = 16`. -/
theorem dff_position_counterexample :
    (¬ marker <:+: ([] : List Byte) ++ [0x44, 0x53, 0x44]) ∧
    8 ≤ ([1, 2, 3, 4, 5, 6, 7, 8] : List Byte).length ∧
    (dff_fast_forward (Fd.opened ([] ++ marker ++ [1, 2, 3, 4, 5, 6, 7, 8]))).2.pos = 12 ∧
    (dff_fast_forward (Fd.opened ([] ++ marker ++ [1, 2, 3, 4, 5, 6, 7, 8]))).2.pos
      ≠ 3 + 1 + 12 := by
  decide

/-- C3, amended: when the first occurrence of the marker has its last byte at
offset `e` and at least 8 bytes follow, the next byte to be read after
`dff_fast_forward` is at offset `e + 1 + 8`, that is 8 bytes after the
marker's last byte and 12 bytes after its first. -/
theorem dff_position_after_marker (pre tail : List Byte) (e : Nat)
    (hfirst : ¬ marker <:+: pre ++ [0x44, 0x53, 0x44]) (htail : 8 ≤ tail.length)
    (he : e = pre.length + 3) :
    (dff_fast_forward (Fd.opened (pre ++ marker ++ tail))).2.pos = e + 1 + 8 ∧
    (dff_fast_forward (Fd.opened (pre ++ marker ++ tail))).2.pos = pre.length + 12 ∧
    (dff_fast_forward (Fd.opened (pre ++ marker ++ tail))).2.rest
      = (pre ++ marker ++ tail).drop (e + 1 + 8) := by
  have hlen : (tail.take 8).length = 8 := by simp; omega
  have hres := dff_scan_found pre tail hfirst
  rw [hlen] at hres
  rw [hres]
  subst he
  refine ⟨rfl, rfl, ?_⟩
  have h1 : pre.length + 3 + 1 + 8 = (pre ++ marker).length + 8 := by simp [marker]
  rw [h1, ← List.drop_drop, List.drop_left]

/-- C3 amended, at a file with three bytes before the marker. -/
theorem dff_position_after_marker_witness :
    (¬ marker <:+: ([7, 0x44, 0x53] : List Byte) ++ [0x44, 0x53, 0x44]) ∧
    8 ≤ ([1, 2, 3, 4, 5, 6, 7, 8, 9, 10] : List Byte).length ∧
    (dff_fast_forward (Fd.opened
      ([7, 0x44, 0x53] ++ marker ++ [1, 2, 3, 4, 5, 6, 7, 8, 9, 10]))).2.pos = 6 + 1 + 8 :=
  ⟨by decide, by decide,
    (dff_position_after_marker [7, 0x44, 0x53] [1, 2, 3, 4, 5, 6, 7, 8, 9, 10] 6
      (by decide) (by decide) (by decide)).1⟩

/-! ## Claims about the layout transform -/

/-- C4: in the wide encoding (`wide = true`, where `SAMPLE_SIZE > 2` holds)
the pass of the loop body that has read a whole chunk of
`n = frames * SAMPLE_SIZE * CHANNELCOUNT` bytes - a multiple of 4 - into
`readbuf` runs the layout loop on that chunk and hands its result to
`snd_pcm_writei`: the data written are the first `n` bytes of `playbuf`, an
output of the same length `n`, in which for every group index `k < n / 4` the
source group `[L0, R0, L1, R1]` at bytes `4k .. 4k+3` of the chunk read has
become `[L1, L0, R1, R0]`, that is
`out[4k..4k+3] = [in[4k+2], in[4k], in[4k+3], in[4k+1]]`; every index the loop
reads or writes is below `n`.  The same holds of the loop on its own for
every chunk length `m` that is a multiple of 4, in buffers of at least `m`
bytes. -/
theorem wide_transform_groups (dev : Device) (frames n : Nat) (s : Sys)
    (hn : n = frames * SAMPLE_SIZE true * CHANNELCOUNT)
    (hfull : n ≤ s.fd.rest.length) (hr : n ≤ s.readbuf.length) (hp : n ≤ s.playbuf.length) :
    SAMPLE_SIZE true > 2 ∧ n % 4 = 0 ∧
    (read_and_play true dev frames s).is_brk = false ∧
    (read_and_play true dev frames s).sys.readbuf = s.fd.rest.take n ++ s.readbuf.drop n ∧
    (read_and_play true dev frames s).sys.playbuf
      = (layout_loop n (s.fd.rest.take n ++ s.readbuf.drop n) 0 (s.playbuf, [])).1 ∧
    (read_and_play true dev frames s).sys.calls
      = s.calls ++ [.writei ((read_and_play true dev frames s).sys.playbuf.take n)
          (frames * CHANNELCOUNT)] ∧
    ((read_and_play true dev frames s).sys.playbuf.take n).length = n ∧
    (∀ k, k < n / 4 → ∃ L0 R0 L1 R1 : Byte,
      (s.fd.rest.take n)[4 * k]? = some L0 ∧ (s.fd.rest.take n)[4 * k + 1]? = some R0 ∧
      (s.fd.rest.take n)[4 * k + 2]? = some L1 ∧ (s.fd.rest.take n)[4 * k + 3]? = some R1 ∧
      ((read_and_play true dev frames s).sys.playbuf.take n)[4 * k]? = some L1 ∧
      ((read_and_play true dev frames s).sys.playbuf.take n)[4 * k + 1]? = some L0 ∧
      ((read_and_play true dev frames s).sys.playbuf.take n)[4 * k + 2]? = some R1 ∧
      ((read_and_play true dev frames s).sys.playbuf.take n)[4 * k + 3]? = some R0) ∧
    (∀ x ∈ (layout_loop n (s.fd.rest.take n ++ s.readbuf.drop n) 0 (s.playbuf, [])).2,
      x < n) ∧
    (∀ (m : Nat) (readbuf playbuf : List Byte),
      m % 4 = 0 → m ≤ readbuf.length → m ≤ playbuf.length →
      ((layout_loop m readbuf 0 (playbuf, [])).1.take m).length = m ∧
      (∀ k, k < m / 4 → ∃ L0 R0 L1 R1 : Byte,
        readbuf[4 * k]? = some L0 ∧ readbuf[4 * k + 1]? = some R0 ∧
        readbuf[4 * k + 2]? = some L1 ∧ readbuf[4 * k + 3]? = some R1 ∧
        ((layout_loop m readbuf 0 (playbuf, [])).1.take m)[4 * k]? = some L1 ∧
        ((layout_loop m readbuf 0 (playbuf, [])).1.take m)[4 * k + 1]? = some L0 ∧
        ((layout_loop m readbuf 0 (playbuf, [])).1.take m)[4 * k + 2]? = some R1 ∧
        ((layout_loop m readbuf 0 (playbuf, [])).1.take m)[4 * k + 3]? = some R0) ∧
      (∀ x ∈ (layout_loop m readbuf 0 (playbuf, [])).2, x < m)) := by
  subst hn
  have hn4 : (frames * SAMPLE_SIZE true * CHANNELCOUNT) % 4 = 0 := by
    simp only [SAMPLE_SIZE, CHANNELCOUNT, if_true]
    omega
  have hlen : (s.fd.rest.take (frames * SAMPLE_SIZE true * CHANNELCOUNT)).length
      = frames * SAMPLE_SIZE true * CHANNELCOUNT := by
    rw [List.length_take]; omega
  obtain ⟨w1, w2, w3, w4⟩ := read_and_play_full_wide dev frames s hfull
  obtain ⟨g1, g2, g3⟩ := layout_loop_groups (frames * SAMPLE_SIZE true * CHANNELCOUNT)
    (s.fd.rest.take (frames * SAMPLE_SIZE true * CHANNELCOUNT)
      ++ s.readbuf.drop (frames * SAMPLE_SIZE true * CHANNELCOUNT)) s.playbuf hn4
    (by rw [List.length_append, hlen]; omega) hp
  refine ⟨by decide, hn4, w1, w2, w3, by rw [w4, w3], by rw [w3]; exact g1, ?_, g3,
    fun m readbuf playbuf hm hr2 hp2 => layout_loop_groups m readbuf playbuf hm hr2 hp2⟩
  intro k hk
  obtain ⟨L0, R0, L1, R1, a0, a1, a2, a3, b0, b1, b2, b3⟩ := g2 k hk
  rw [List.getElem?_append_left (by rw [hlen]; omega)] at a0 a1 a2 a3
  rw [w3]
  exact ⟨L0, R0, L1, R1, a0, a1, a2, a3, b0, b1, b2, b3⟩

/-- C4 on a chunk of one frame of the wide encoding, eight bytes in two
groups: the data written are the two groups, each reordered. -/
theorem wide_transform_groups_witness :
    8 = 1 * SAMPLE_SIZE true * CHANNELCOUNT ∧
    8 ≤ (⟨[], [], ⟨0, [1, 2, 3, 4, 5, 6, 7, 8, 9]⟩, [0, 0, 0, 0, 0, 0, 0, 0],
      [0, 0, 0, 0, 0, 0, 0, 0]⟩ : Sys).fd.rest.length ∧
    (read_and_play true (dev_ready 1) 1
      ⟨[], [], ⟨0, [1, 2, 3, 4, 5, 6, 7, 8, 9]⟩, [0, 0, 0, 0, 0, 0, 0, 0],
        [0, 0, 0, 0, 0, 0, 0, 0]⟩).sys.calls
      = [.writei [3, 1, 4, 2, 7, 5, 8, 6] 2] := by
  refine ⟨by decide, by decide, ?_⟩
  have h := wide_transform_groups (dev_ready 1) 1 8
    ⟨[], [], ⟨0, [1, 2, 3, 4, 5, 6, 7, 8, 9]⟩, [0, 0, 0, 0, 0, 0, 0, 0],
      [0, 0, 0, 0, 0, 0, 0, 0]⟩ (by decide) (by decide) (by decide) (by decide)
  rw [h.2.2.2.2.2.1, h.2.2.2.2.1]
  have he : layout_loop 8
      (List.take 8 ([1, 2, 3, 4, 5, 6, 7, 8, 9] : List Byte)
        ++ List.drop 8 ([0, 0, 0, 0, 0, 0, 0, 0] : List Byte)) 0
      (([0, 0, 0, 0, 0, 0, 0, 0] : List Byte), [])
      = ([3, 1, 4, 2, 7, 5, 8, 6], [0, 2, 1, 0, 2, 3, 3, 1, 4, 6, 5, 4, 6, 7, 7, 5]) :=
    layout_loop_two_groups
  simp only [he]
  rfl

/-! ## Claims about `open_stream` -/

/-- C9: for every device behaviour, (1) when step `k` of `open_stream` is the
first to return a negative code `e`, the calls `open_stream` makes are exactly
the steps up to and including step `k` (no later step runs), it prints exactly
the diagnostic of that stage with `e`, and it returns `e`; (2) `main` then
returns `e`, its whole log is those setup calls - no `prepare`, `wait`,
`avail_update` or `writei` - and the input file is where it was before
`open_stream`, so no chunk was read; (3) when every checked step returns a
non-negative code, `open_stream` makes all its calls and returns 0. -/
theorem negotiation_atomic (wide : Bool) (dev : Device) :
    (∀ (name : String) (dir : Dir) (rate : Nat) (s : Sys) (k : Nat) (c : Call) (text : String)
        (e : Int),
      (setup_steps wide name dir rate)[k]? = some (c, some text) →
      (∀ j cj tj, j < k → (setup_steps wide name dir rate)[j]? = some (cj, some tj) →
        0 ≤ dev (s.calls ++ setup_calls wide name dir rate (j + 1))) →
      dev (s.calls ++ setup_calls wide name dir rate (k + 1)) = e → e < 0 →
      open_stream wide dev name dir rate s
        = (e, { s with calls := s.calls ++ setup_calls wide name dir rate (k + 1),
                       err_out := s.err_out ++ [.stage name (dirname_of dir) text e] })) ∧
    (∀ (env : Env) (content : List Byte) (k : Nat) (c : Call) (text : String) (e : Int),
      env.dev = dev → 2 ≤ env.argv.length → env.file = some content →
      (main_steps wide)[k]? = some (c, some text) →
      (∀ j cj tj, j < k → (main_steps wide)[j]? = some (cj, some tj) →
        0 ≤ dev (((main_steps wide).take (j + 1)).map Prod.fst)) →
      dev (((main_steps wide).take (k + 1)).map Prod.fst) = e → e < 0 →
      main wide env
          = ⟨e, ((main_steps wide).take (k + 1)).map Prod.fst,
              [.stage "hw:MPD3" "PLAYBACK" text e],
              some (start_fd (env.argv.getD 1 "") content)⟩ ∧
        ∀ x ∈ (main wide env).calls, x.is_streaming = false) ∧
    (∀ (name : String) (dir : Dir) (rate : Nat) (s : Sys),
      (∀ j cj tj, (setup_steps wide name dir rate)[j]? = some (cj, some tj) →
        0 ≤ dev (s.calls ++ setup_calls wide name dir rate (j + 1))) →
      open_stream wide dev name dir rate s
        = (0, { s with calls := s.calls
                  ++ setup_calls wide name dir rate (setup_steps wide name dir rate).length })) := by
  refine ⟨?_, ?_, ?_⟩
  · intro name dir rate s k c text e hk hok he hneg
    exact open_stream_fail wide dev name dir rate s k c text e hk hok he hneg
  · intro env content k c text e hdev hargs hfile hk hok he hneg
    have hmain : main wide env
        = ⟨e, ((main_steps wide).take (k + 1)).map Prod.fst,
            [.stage "hw:MPD3" "PLAYBACK" text e],
            some (start_fd (env.argv.getD 1 "") content)⟩ := by
      rw [main_eq_main_play wide env content hargs hfile]
      unfold main_play
      simp only []
      rw [hdev, open_stream_fail wide dev "hw:MPD3" .PLAYBACK (352800 / SAMPLE_RATE_DIV wide)
        ⟨[], [], start_fd (env.argv.getD 1 "") content, [], []⟩ k c text e hk
        (by simpa [setup_calls, main_steps] using hok)
        (by simpa [setup_calls, main_steps] using he) hneg]
      rw [if_pos hneg]
      simp [Sys.ret, setup_calls, main_steps, dirname_of]
    refine ⟨hmain, ?_⟩
    rw [hmain]
    intro x hx
    exact main_steps_not_streaming wide x (List.map_subset _ (List.take_subset _ _) hx)
  · intro name dir rate s hok
    rw [open_stream_eq_run_steps, run_steps_ok dev name (dirname_of dir) _ s hok]
    simp [setup_calls]

/-- C9 on a device that rejects the sample format: `open_stream` stops at its
fifth call and `main` returns `-22` after those five calls; and on a device
that accepts everything `open_stream` returns 0. -/
theorem negotiation_atomic_witness :
    main false ⟨["dsd", "a.raw"], some [1, 2, 3, 4], dev_no_format, true, true⟩
      = ⟨-22,
          [.pcm_open "hw:MPD3" .PLAYBACK 0, .hw_params_malloc, .hw_params_any,
            .hw_params_set_access .RW_INTERLEAVED, .hw_params_set_format .DSD_U8],
          [.stage "hw:MPD3" "PLAYBACK" "cannot set sample format" (-22)],
          some ⟨0, [1, 2, 3, 4]⟩⟩ ∧
    (open_stream false (fun _ => 0) "hw:MPD3" .PLAYBACK 352800 ⟨[], [], ⟨0, []⟩, [], []⟩).1 = 0 :=
  ⟨((negotiation_atomic false dev_no_format).2.1
      ⟨["dsd", "a.raw"], some [1, 2, 3, 4], dev_no_format, true, true⟩ [1, 2, 3, 4] 4
      (.hw_params_set_format .DSD_U8) "cannot set sample format" (-22) rfl (by decide) rfl rfl
      (by intro j cj tj hj _; interval_cases j <;> decide) rfl (by decide)).1,
    congrArg Prod.fst ((negotiation_atomic false (fun _ => 0)).2.2 "hw:MPD3" .PLAYBACK 352800
      ⟨[], [], ⟨0, []⟩, [], []⟩ (fun _ _ _ _ => le_refl 0))⟩


/-! ## Claims about the transfer loop -/

/-- C6: in every pass of the loop in which the sink has signalled capacity and
the read delivers fewer bytes than the chunk asked for (also none at all), for
the clamped `frames` (which lies between 1 and `FRAMECOUNT`): the pass ends at
a `break`, the only device calls of the pass are the wait and the capacity
query - nothing is written - `playbuf` is untouched, the loop is over, and the
rest of `main` returns 0 with no write added to the log. -/
theorem short_read_exits (wide : Bool) (dev : Device) (s : Sys) (frames : Nat)
    (hw : 0 ≤ dev (s.calls ++ [.wait 1000]))
    (hc : 0 < to_int32 (dev (s.calls ++ [.wait 1000] ++ [.avail_update])))
    (hframes : frames
      = (clamp (to_int32 (dev (s.calls ++ [.wait 1000] ++ [.avail_update])))).toNat)
    (hshort : (s.fd.read (frames * SAMPLE_SIZE wide * CHANNELCOUNT)).1.length
      < frames * SAMPLE_SIZE wide * CHANNELCOUNT) :
    1 ≤ frames ∧ frames ≤ FRAMECOUNT ∧
    (loop_body wide dev s).is_brk = true ∧
    (loop_body wide dev s).sys.calls = s.calls ++ [.wait 1000, .avail_update] ∧
    writes (loop_body wide dev s).sys.calls = writes s.calls ∧
    (loop_body wide dev s).sys.playbuf = s.playbuf ∧
    transfer_loop wide dev s = (loop_body wide dev s).sys ∧
    (main_finish dev (transfer_loop wide dev s)).exit = 0 ∧
    writes (main_finish dev (transfer_loop wide dev s)).calls = writes s.calls := by
  have hr := clamp_range _ hc
  rw [← hframes] at hr
  have hlt : s.fd.rest.length
      < (clamp (to_int32 (dev (s.calls ++ [.wait 1000] ++ [.avail_update])))).toNat
          * SAMPLE_SIZE wide * CHANNELCOUNT := by
    rw [← hframes]
    simp only [Fd.read, List.length_take] at hshort
    omega
  obtain ⟨b1, b2, _, b4, _⟩ := loop_body_short_read wide dev s hw hc hlt
  have hstop := transfer_loop_stop wide dev s b1
  refine ⟨hr.1, hr.2, b1, b2, ?_, b4, hstop, rfl, ?_⟩
  · rw [b2, writes_append]
    simp [writes]
  · rw [hstop]
    simp only [main_finish, Sys.call, Sys.ret, b2, writes_append]
    simp [writes]

/-- C6 on a file with three bytes left and a sink reporting one frame. -/
theorem short_read_exits_witness :
    (loop_body false (dev_ready 1) ⟨[], [], ⟨8, [1, 2, 3]⟩, [], []⟩).is_brk = true ∧
    (loop_body false (dev_ready 1) ⟨[], [], ⟨8, [1, 2, 3]⟩, [], []⟩).sys.calls
      = [.wait 1000, .avail_update] ∧
    (main_finish (dev_ready 1)
      (transfer_loop false (dev_ready 1) ⟨[], [], ⟨8, [1, 2, 3]⟩, [], []⟩)).exit = 0 :=
  ⟨(short_read_exits false (dev_ready 1) ⟨[], [], ⟨8, [1, 2, 3]⟩, [], []⟩ 1
      (by decide) (by decide) (by decide) (by decide)).2.2.1,
    (short_read_exits false (dev_ready 1) ⟨[], [], ⟨8, [1, 2, 3]⟩, [], []⟩ 1
      (by decide) (by decide) (by decide) (by decide)).2.2.2.1,
    (short_read_exits false (dev_ready 1) ⟨[], [], ⟨8, [1, 2, 3]⟩, [], []⟩ 1
      (by decide) (by decide) (by decide) (by decide)).2.2.2.2.2.2.2.1⟩

/-- C5, amended: in every pass in which the wait succeeded and the sink
reports a positive capacity `c` (also one above the ceiling), the frame count
`frames` that sizes the read - the read asks for
`frames * SAMPLE_SIZE * CHANNELCOUNT` bytes, at most `BUFSIZE` - is at most
`FRAMECOUNT`; the pass submits at most one write, and the frame count passed
to `snd_pcm_writei` is `frames * CHANNELCOUNT`, which is at most
`CHANNELCOUNT * FRAMECOUNT = 262144`. -/
theorem chunk_frames_clamped (wide : Bool) (dev : Device) (s : Sys) (c : Int)
    (hw : 0 ≤ dev (s.calls ++ [.wait 1000]))
    (hc : dev (s.calls ++ [.wait 1000] ++ [.avail_update]) = c) (hpos : 0 < c) :
    (clamp (to_int32 c)).toNat ≤ FRAMECOUNT ∧
    (clamp (to_int32 c)).toNat * SAMPLE_SIZE wide * CHANNELCOUNT ≤ BUFSIZE wide ∧
    (0 < to_int32 c →
      loop_body wide dev s = read_and_play wide dev (clamp (to_int32 c)).toNat
        { s with calls := s.calls ++ [.wait 1000] ++ [.avail_update] }) ∧
    (loop_body wide dev s).sys.fd.pos
      ≤ s.fd.pos + (clamp (to_int32 c)).toNat * SAMPLE_SIZE wide * CHANNELCOUNT ∧
    (writes (loop_body wide dev s).sys.calls = writes s.calls ∨
      ∃ data, writes (loop_body wide dev s).sys.calls
        = writes s.calls ++ [(data, (clamp (to_int32 c)).toNat * CHANNELCOUNT)]) ∧
    (clamp (to_int32 c)).toNat * CHANNELCOUNT ≤ CHANNELCOUNT * FRAMECOUNT ∧
    CHANNELCOUNT * FRAMECOUNT = 262144 := by
  have hle : (clamp (to_int32 c)).toNat ≤ FRAMECOUNT := by
    unfold clamp
    split
    · simp
    · rename_i h
      omega
  subst hc
  refine ⟨hle, ?_, ?_, ?_, ?_, ?_, by decide⟩
  · unfold BUFSIZE
    exact Nat.mul_le_mul_right _ (Nat.mul_le_mul_right _ hle)
  · intro h
    exact loop_body_capacity wide dev s hw h
  · by_cases h : 0 < to_int32 (dev (s.calls ++ [.wait 1000] ++ [.avail_update]))
    · rw [loop_body_capacity wide dev s hw h]
      exact (read_and_play_writes wide dev _ _).2
    · rw [loop_body_no_capacity wide dev s hw (by omega)]
      simp only [Step.sys]
      omega
  · by_cases h : 0 < to_int32 (dev (s.calls ++ [.wait 1000] ++ [.avail_update]))
    · rw [loop_body_capacity wide dev s hw h]
      rcases (read_and_play_writes wide dev
        (clamp (to_int32 (dev (s.calls ++ [.wait 1000] ++ [.avail_update])))).toNat
        { s with calls := s.calls ++ [.wait 1000] ++ [.avail_update] }).1 with h1 | ⟨data, h1⟩
      · left
        rw [h1]
        simp [writes_append, writes]
      · right
        refine ⟨data, ?_⟩
        rw [h1]
        simp [writes_append, writes]
    · left
      rw [loop_body_no_capacity wide dev s hw (by omega)]
      simp [Step.sys, writes_append, writes]
  · rw [Nat.mul_comm]
    exact Nat.mul_le_mul_left _ hle

/-- C5 amended, for a reported capacity of 200000 frames, above the ceiling. -/
theorem chunk_frames_clamped_witness :
    0 ≤ dev_ready 200000 (([] : List Call) ++ [.wait 1000]) ∧
    (0 : Int) < 200000 ∧
    (clamp (to_int32 200000)).toNat ≤ FRAMECOUNT ∧
    (clamp (to_int32 200000)).toNat * CHANNELCOUNT ≤ CHANNELCOUNT * FRAMECOUNT :=
  ⟨by decide, by decide,
    (chunk_frames_clamped false (dev_ready 200000) ⟨[], [], ⟨0, [1, 2, 3, 4]⟩, [], []⟩ 200000
      (by decide) (by decide) (by decide)).1,
    (chunk_frames_clamped false (dev_ready 200000) ⟨[], [], ⟨0, [1, 2, 3, 4]⟩, [], []⟩ 200000
      (by decide) (by decide) (by decide)).2.2.2.2.2.1⟩

/-- C5 as stated fails: entering the loop on a file of 524288 bytes with a
sink that reports 200000 free frames, the first pass clamps `frames` to
`FRAMECOUNT = 131072` and then calls `snd_pcm_writei` with
`frames * CHANNELCOUNT = 262144` frames, which is more than `FRAMECOUNT`. -/
theorem write_count_counterexample :
    dev_ready 200000 ((loop_entry false ⟨0, List.replicate 524288 0⟩).calls
      ++ [.wait 1000] ++ [.avail_update]) = 200000 ∧
    writes (loop_body false (dev_ready 200000)
      (loop_entry false ⟨0, List.replicate 524288 0⟩)).sys.calls
        = [(List.replicate 524288 0, 262144)] ∧
    ¬ (262144 ≤ FRAMECOUNT) :=
  ⟨(first_pass_200000 (List.replicate 524288 0) (List.length_replicate _ _)).1,
    (first_pass_200000 (List.replicate 524288 0) (List.length_replicate _ _)).2,
    by decide⟩

/-- C7 as stated fails: on a device whose every `snd_pcm_wait` times out
(returns 0) the loop does not stop at the timeout: after the first wait `main`
queries the capacity, reads the four bytes of the file and writes them to the
sink, and only the second pass ends, at the short read. -/
theorem timeout_counterexample :
    (∀ tr, dev_timeout (tr ++ [.wait 1000]) = 0) ∧
    main false ⟨["dsd", "a.raw"], some [1, 2, 3, 4], dev_timeout, true, true⟩
      = ⟨0, (main_steps false).map Prod.fst ++ [.prepare, .wait 1000, .avail_update,
            .writei [1, 2, 3, 4] 2, .wait 1000, .avail_update, .close], [],
          some ⟨4, []⟩⟩ :=
  ⟨fun tr => by simp [dev_timeout],
    main_one_chunk ⟨["dsd", "a.raw"], some [1, 2, 3, 4], dev_timeout, true, true⟩ [1, 2, 3, 4] 1
      (by decide) rfl (setup_ok_of_accepts false dev_timeout dev_timeout_accepts) (by decide)
      rfl rfl (fun tr => by simp [dev_timeout])
      (fun tr => by
        have h : dev_timeout (tr ++ [.avail_update]) = 1 := by simp [dev_timeout]
        show 0 < to_int32 (dev_timeout (tr ++ [.avail_update])) ∧
          (clamp (to_int32 (dev_timeout (tr ++ [.avail_update])))).toNat = 1
        rw [h]
        decide)
      (by decide)⟩

/-- C7, amended: in every pass of the loop, when `snd_pcm_wait` returns a
negative code the loop ends at once - `poll failed` is printed and neither the
capacity query nor a read nor a write follows; when it returns 0, the timeout
result, the loop does not end there: nothing is printed, the capacity query is
made next, and with a positive capacity the pass goes on to the read and the
write exactly as after a wait that signalled readiness. -/
theorem wait_result_handling (wide : Bool) (dev : Device) (s : Sys) :
    (dev (s.calls ++ [.wait 1000]) < 0 →
      loop_body wide dev s
        = .brk { s with calls := s.calls ++ [.wait 1000],
                        err_out := s.err_out ++ [.poll_failed] } ∧
      transfer_loop wide dev s
        = { s with calls := s.calls ++ [.wait 1000],
                   err_out := s.err_out ++ [.poll_failed] }) ∧
    (dev (s.calls ++ [.wait 1000]) = 0 →
      (∃ more, (loop_body wide dev s).sys.calls
        = s.calls ++ [.wait 1000, .avail_update] ++ more) ∧
      (to_int32 (dev (s.calls ++ [.wait 1000] ++ [.avail_update])) ≤ 0 →
        loop_body wide dev s
          = .brk { s with calls := s.calls ++ [.wait 1000] ++ [.avail_update] }) ∧
      (0 < to_int32 (dev (s.calls ++ [.wait 1000] ++ [.avail_update])) →
        loop_body wide dev s
          = read_and_play wide dev
              (clamp (to_int32 (dev (s.calls ++ [.wait 1000] ++ [.avail_update])))).toNat
              { s with calls := s.calls ++ [.wait 1000] ++ [.avail_update] })) := by
  refine ⟨fun h => ⟨loop_body_wait_error wide dev s h,
    transfer_loop_brk wide dev s _ (loop_body_wait_error wide dev s h)⟩, ?_⟩
  intro h0
  have hw : 0 ≤ dev (s.calls ++ [.wait 1000]) := by omega
  refine ⟨?_, fun h => loop_body_no_capacity wide dev s hw h,
    fun h => loop_body_capacity wide dev s hw h⟩
  by_cases h : 0 < to_int32 (dev (s.calls ++ [.wait 1000] ++ [.avail_update]))
  · rw [loop_body_capacity wide dev s hw h]
    simp only [read_and_play]
    split
    · exact ⟨[], by simp [Step.sys]⟩
    · exact ⟨_, by simp only [Step.sys, Sys.call, List.append_assoc, List.singleton_append,
        List.cons_append, List.nil_append]; rfl⟩
  · rw [loop_body_no_capacity wide dev s hw (by omega)]
    exact ⟨[], by simp [Step.sys]⟩

/-- C7 amended, on a device whose wait fails and on one whose wait times out. -/
theorem wait_result_handling_witness :
    transfer_loop false dev_wait_error ⟨[], [], ⟨0, [1, 2, 3, 4]⟩, [], []⟩
      = ⟨[.wait 1000], [.poll_failed], ⟨0, [1, 2, 3, 4]⟩, [], []⟩ ∧
    ∃ more, (loop_body false dev_timeout ⟨[], [], ⟨0, [1, 2, 3, 4]⟩, [], []⟩).sys.calls
      = [] ++ [.wait 1000, .avail_update] ++ more :=
  ⟨((wait_result_handling false dev_wait_error ⟨[], [], ⟨0, [1, 2, 3, 4]⟩, [], []⟩).1
      (by decide)).2,
    ((wait_result_handling false dev_timeout ⟨[], [], ⟨0, [1, 2, 3, 4]⟩, [], []⟩).2
      (by decide)).1⟩

/-! ## Claims about whole runs -/

/-- C10 as stated fails: a raw file of exactly `FRAMECOUNT = 131072` frames of
`1 * 2` bytes, that is 262144 bytes, played on a sink that accepts everything
and always reports `FRAMECOUNT` free frames, leads to no write at all: the
first read asks for `FRAMECOUNT * SAMPLE_SIZE * CHANNELCOUNT = 524288` bytes,
gets 262144, and the loop ends. -/
theorem one_chunk_counterexample :
    (List.replicate (131072 * (1 * 2)) (0 : Byte)).length = 131072 * (1 * 2) ∧
    (∀ tr, dev_ready 131072 (tr ++ [.avail_update]) = 131072) ∧
    main false ⟨["dsd", "a.raw"], some (List.replicate (131072 * (1 * 2)) 0),
        dev_ready 131072, true, true⟩
      = ⟨0, (main_steps false).map Prod.fst ++ [.prepare, .wait 1000, .avail_update, .close],
          [], some ⟨262144, []⟩⟩ ∧
    writes ((main_steps false).map Prod.fst ++ [.prepare, .wait 1000, .avail_update, .close])
      = [] :=
  ⟨List.length_replicate _ _, fun tr => by simp [dev_ready],
    half_chunk_run _ (List.length_replicate _ _),
    by rw [writes_append, writes_main_steps]; rfl⟩

/-- C10, amended: for every raw-mode input (name not ending in `.dff`) whose
content is exactly one chunk as the loop reads it -
`FRAMECOUNT * SAMPLE_SIZE * CHANNELCOUNT = 131072 * 2 * 2 = 524288` bytes, the
size of the buffers - when both buffers are allocated, setup, prepare and
every wait succeed and the sink always reports at least `FRAMECOUNT` free
frames (a value that fits an `int`), the run makes exactly one
`snd_pcm_writei` call, of `FRAMECOUNT * CHANNELCOUNT = 262144` frames, whose
data is the whole input byte for byte, prints nothing, leaves the file at its
end and returns 0. -/
theorem one_chunk_end_to_end (env : Env) (content : List Byte)
    (hargs : 2 ≤ env.argv.length) (hraw : ends_in_dff (env.argv.getD 1 "") = false)
    (hfile : env.file = some content)
    (hlen : content.length = FRAMECOUNT * SAMPLE_SIZE false * CHANNELCOUNT)
    (hm1 : env.malloc_playbuf = true) (hm2 : env.malloc_readbuf = true)
    (hsetup : ∀ j cj tj, (main_steps false)[j]? = some (cj, some tj) →
      0 ≤ env.dev (((main_steps false).take (j + 1)).map Prod.fst))
    (hprep : 0 ≤ env.dev ((main_steps false).map Prod.fst ++ [.prepare]))
    (hwait : ∀ tr, 0 ≤ env.dev (tr ++ [.wait 1000]))
    (hav : ∀ tr, (FRAMECOUNT : Int) ≤ env.dev (tr ++ [.avail_update]) ∧
      env.dev (tr ++ [.avail_update]) < 2 ^ 31) :
    writes (main false env).calls = [(content, FRAMECOUNT * CHANNELCOUNT)] ∧
    (main false env).exit = 0 ∧
    (main false env).err_out = [] ∧
    (main false env).fd = some ⟨content.length, []⟩ ∧
    content.length = 524288 ∧ BUFSIZE false = 524288 ∧ FRAMECOUNT * CHANNELCOUNT = 262144 := by
  have hfd : start_fd (env.argv.getD 1 "") content = ⟨0, content⟩ := by
    unfold start_fd
    rw [hraw]
    rfl
  have h := main_one_chunk env content FRAMECOUNT hargs hfile hsetup hprep hm1 hm2 hwait
    (fun tr => clamp_full _ (hav tr).1 (hav tr).2) (by rw [hfd]; exact hlen)
  rw [h, hfd]
  refine ⟨?_, rfl, rfl, by simp, by rw [hlen]; decide, by decide, by decide⟩
  rw [writes_append, writes_main_steps]
  rfl

/-- C10 amended, on a file of 524288 zero bytes and a sink reporting exactly
`FRAMECOUNT` free frames. -/
theorem one_chunk_end_to_end_witness :
    ends_in_dff "a.raw" = false ∧
    (List.replicate 524288 (0 : Byte)).length = FRAMECOUNT * SAMPLE_SIZE false * CHANNELCOUNT ∧
    writes (main false
      ⟨["dsd", "a.raw"], some (List.replicate 524288 0), dev_ready 131072, true, true⟩).calls
      = [(List.replicate 524288 0, FRAMECOUNT * CHANNELCOUNT)] ∧
    (main false
      ⟨["dsd", "a.raw"], some (List.replicate 524288 0), dev_ready 131072, true, true⟩).exit
      = 0 :=
  ⟨by decide, List.length_replicate _ _,
    (one_chunk_end_to_end
      ⟨["dsd", "a.raw"], some (List.replicate 524288 0), dev_ready 131072, true, true⟩
      (List.replicate 524288 0) (by decide) (by decide) rfl (List.length_replicate _ _) rfl rfl
      (setup_ok_of_accepts false _ (dev_ready_accepts 131072)) (by decide)
      (fun tr => by simp [dev_ready]) (fun tr => by simp [dev_ready, FRAMECOUNT])).1,
    (one_chunk_end_to_end
      ⟨["dsd", "a.raw"], some (List.replicate 524288 0), dev_ready 131072, true, true⟩
      (List.replicate 524288 0) (by decide) (by decide) rfl (List.length_replicate _ _) rfl rfl
      (setup_ok_of_accepts false _ (dev_ready_accepts 131072)) (by decide)
      (fun tr => by simp [dev_ready]) (fun tr => by simp [dev_ready, FRAMECOUNT])).2.1⟩

/-- C2 on the code: for a file named `a.dff` whose three bytes do not contain
the marker, `dff_fast_forward` returns 0 - the result of the `read` that hit
the end of the file - which is not negative, so `main` does not abort: it
opens and configures the device, prepares it, enters the loop, finds the file
exhausted at the first read and returns 0. -/
theorem dff_marker_absent_run :
    (¬ marker <:+: ([1, 2, 3] : List Byte)) ∧
    dff_fast_forward (Fd.opened [1, 2, 3]) = (0, ⟨3, []⟩) ∧
    main false ⟨["dsd", "a.dff"], some [1, 2, 3], dev_ready 1, true, true⟩
      = ⟨0, (main_steps false).map Prod.fst ++ [.prepare, .wait 1000, .avail_update, .close],
          [], some ⟨3, []⟩⟩ :=
  ⟨by decide, by decide,
    main_first_read_short false ⟨["dsd", "a.dff"], some [1, 2, 3], dev_ready 1, true, true⟩
      [1, 2, 3] (by decide) rfl (setup_ok_of_accepts false _ (dev_ready_accepts 1)) (by decide)
      rfl rfl (by decide) (by decide) (by decide)⟩

end DsdPlayer
